import Mathlib

/-!
Shallow embedding of the narrative-analytics backend (`backend/utils.py` and
`backend/analytics_engine.py`).

Modelling conventions:
* Python floats are modelled as exact rationals; Python `round(x, n)` is
  round-half-to-even, modelled exactly on `ℚ` by `rhe`.
* A pandas `DataFrame` is a header (column name and dtype per column) plus a
  list of rows; a cell is a string, a number, or null (`NaN`).
* The sentiment model is an external capability: a function from a list of
  strings to a list of scores, which may raise (`Except`).  Every stage other
  than the predictive one propagates a scorer exception to its caller.
* The sklearn calls of the predictive stage (TF-IDF vectorizer, train/test
  split, logistic-regression fit/predict) are external library calls modelled
  as capability parameters (`TrainEnv`) that may raise; the evaluation metrics
  (accuracy, precision, recall, F1) are computed from the held-out labels and
  predictions exactly as sklearn defines them, with `zero_division=0`.
* `numpy.sqrt` inside Pearson correlation is modelled by a square-root
  capability parameter `rsqrt`; pandas `corr` uses pairwise-complete
  observations and the code replaces undefined correlations by 0 (`fillna`).
* Python string `.upper()` / `.lower()` are modelled on ASCII letters (the
  sentiment labels and tokens the pipeline handles are ASCII).
* `DataFrame.describe` output (`summary_statistics`) is not modelled: no
  analysed property refers to it.
-/

namespace NAE

/-- Characters treated as whitespace by Python's `re` `\s` and `str.strip()`
(the Unicode whitespace set). -/
def isPySpace (c : Char) : Bool :=
  c == ' ' || c == '\t' || c == '\n' || c == '\r' || c == '\x0b' || c == '\x0c' ||
  c == '\x1c' || c == '\x1d' || c == '\x1e' || c == '\x1f' || c == '\x85' ||
  c == '\xa0' || c == ' ' || (' ' ≤ c && c ≤ ' ') ||
  c == ' ' || c == ' ' || c == ' ' || c == ' ' || c == '　'

/-- Characters matched by the regex `[\r\n\t]`. -/
def isRNT (c : Char) : Bool :=
  c == '\r' || c == '\n' || c == '\t'

/-- Replace every maximal run of characters satisfying `p` by a single space;
the flag records whether the previous character was part of a run.  This is
`re.sub(r"[..]+", " ", s)` for a character-class regex. -/
def collapseAux (p : Char → Bool) : Bool → List Char → List Char
  | _, [] => []
  | inRun, c :: cs =>
    if p c then
      if inRun then collapseAux p true cs
      else ' ' :: collapseAux p true cs
    else c :: collapseAux p false cs

/-- `re.sub` of a one-character-class `+`-regex by a single space. -/
def collapseRuns (p : Char → Bool) (l : List Char) : List Char :=
  collapseAux p false l

/-- Remove trailing whitespace (the tail half of Python `str.strip()`). -/
def stripEnd (l : List Char) : List Char :=
  (l.reverse.dropWhile isPySpace).reverse

/-- Python `str.strip()`: drop leading and trailing whitespace. -/
def pyStrip (l : List Char) : List Char :=
  stripEnd (l.dropWhile isPySpace)

/-- `utils.clean_text`: replace NUL by a space, collapse `[\r\n\t]+` runs to a
single space, collapse whitespace runs to a single space, and strip. -/
def clean_text (s : String) : String :=
  String.mk (pyStrip (collapseRuns isPySpace (collapseRuns isRNT
    (s.data.map fun c => if c = '\x00' then ' ' else c))))

/-- A cell of the table: a string, a number (Python int/float, modelled as an
exact rational), or null (`NaN`/`None`). -/
inductive Cell
  | str (s : String)
  | num (q : ℚ)
  | null
deriving DecidableEq

/-- The pandas dtype of a column, as far as the pipeline inspects it
(`is_string_dtype` / `select_dtypes(include=[np.number])`). -/
inductive Dtype
  | string
  | number
  | other
deriving DecidableEq

/-- A pandas DataFrame: named, dtyped columns and a list of rows.  A row lists
its cells in column order (missing cells read as null). -/
structure DataFrame where
  header : List (String × Dtype)
  rows : List (List Cell)
deriving DecidableEq

/-- `utils._normalize_value`: strings go through `clean_text`, any other value
is returned unchanged. -/
def normCell : Cell → Cell
  | .str s => .str (clean_text s)
  | c => c

/-- A row every cell of which is null (`dropna(how="all")` drops these). -/
def allNullRow (r : List Cell) : Bool :=
  r.all (· == Cell.null)

/-- Keep the first occurrence of each element, dropping later duplicates
(`DataFrame.drop_duplicates`); `seen` accumulates what has appeared. -/
def dedupFirstAux [DecidableEq α] (seen : List α) : List α → List α
  | [] => []
  | a :: t => if a ∈ seen then dedupFirstAux seen t else a :: dedupFirstAux (a :: seen) t

/-- Deduplication keeping first occurrences, `drop_duplicates` semantics. -/
def dedupFirst [DecidableEq α] (l : List α) : List α :=
  dedupFirstAux [] l

/-- The rows surviving `dropna(how="all")` followed by `drop_duplicates`,
before cell normalization. -/
def dedupStage (df : DataFrame) : List (List Cell) :=
  dedupFirst (df.rows.filter fun r => !allNullRow r)

/-- `utils.clean_dataframe`: drop fully-null rows, drop exact-duplicate rows
(first kept), then normalize every cell of every remaining row. -/
def clean_dataframe (df : DataFrame) : DataFrame :=
  ⟨df.header, (dedupStage df).map (List.map normCell)⟩

/-- Round-half-to-even to the nearest integer: the exact-rational model of
Python `round` (and of IEEE rounding of an exactly-representable half). -/
def rhe (q : ℚ) : ℤ :=
  if q - ⌊q⌋ < 1 / 2 then ⌊q⌋
  else if 1 / 2 < q - ⌊q⌋ then ⌊q⌋ + 1
  else if ⌊q⌋ % 2 = 0 then ⌊q⌋ else ⌊q⌋ + 1

/-- Python `round(q, ndigits)` on the exact-rational model. -/
def pyRound (ndigits : ℕ) (q : ℚ) : ℚ :=
  (rhe (q * 10 ^ ndigits) : ℚ) / 10 ^ ndigits

/-- ASCII uppercasing of one character (`str.upper` restricted to ASCII). -/
def upChar (c : Char) : Char :=
  if 97 ≤ c.toNat ∧ c.toNat ≤ 122 then Char.ofNat (c.toNat - 32) else c

/-- ASCII lowercasing of one character (`str.lower` restricted to ASCII). -/
def lowChar (c : Char) : Char :=
  if 65 ≤ c.toNat ∧ c.toNat ≤ 90 then Char.ofNat (c.toNat + 32) else c

/-- Python `str.upper()` (ASCII model). -/
def pyUpper (s : String) : String := String.mk (s.data.map upChar)

/-- Python `str.lower()` (ASCII model). -/
def pyLower (s : String) : String := String.mk (s.data.map lowChar)

/-- One sentiment score as the pipeline reads it: a dict that may or may not
carry a `"label"` key (the confidence entry is never read by the engine). -/
structure Score where
  label : Option String
deriving DecidableEq

/-- The sentiment-scoring capability (`model`): scores a list of texts, or
raises. -/
abbrev Scorer := List String → Except String (List Score)

/-- `analytics_engine._sentiment_label`: `str(score.get("label", "NEUTRAL")).upper()`. -/
def _sentiment_label (score : Score) : String :=
  pyUpper (score.label.getD "NEUTRAL")

/-- `analytics_engine._find_text_column`: index of the first string-dtype
column in header order (the source returns the column name; we keep the
position, which is what column access uses). -/
def findTextColIdx (df : DataFrame) : Option ℕ :=
  df.header.findIdx? fun p => p.2 == Dtype.string

/-- The cells of column `i`, one per row (missing cells are null). -/
def colCells (df : DataFrame) (i : ℕ) : List Cell :=
  df.rows.map fun r => r.getD i Cell.null

/-- `df[col].fillna("").astype(str)` applied to one cell.  (The string
rendering of a stray number inside a string-dtype column is immaterial to
every analysed property.) -/
def cellToText : Cell → String
  | .null => ""
  | .str s => s
  | .num q => toString q

/-- The text column as the list of strings the stages iterate over. -/
def textsOfCol (df : DataFrame) (i : ℕ) : List String :=
  (colCells df i).map cellToText

/-- Python `str.split()` worker: split on whitespace runs, discarding empty
pieces; `acc` holds the current word reversed. -/
def splitWsAux : List Char → List Char → List (List Char)
  | [], acc => if acc.isEmpty then [] else [acc.reverse]
  | c :: cs, acc =>
    if isPySpace c then
      if acc.isEmpty then splitWsAux cs [] else acc.reverse :: splitWsAux cs []
    else splitWsAux cs (c :: acc)

/-- Python `str.split()` with no separator argument. -/
def pySplitWs (s : String) : List String :=
  (splitWsAux s.data []).map String.mk

/-- `analytics_engine._tokenize`: normalize, lowercase, split on whitespace,
drop empty tokens. -/
def _tokenize (text : String) : List String :=
  pySplitWs (pyLower (clean_text text))

/-- One `{"word": w, "count": n}` entry of a frequency list. -/
structure WordCount where
  word : String
  count : ℕ
deriving DecidableEq

/-- The (total pre)order `collections.Counter.most_common` sorts by:
descending count. -/
def countGE (a b : WordCount) : Prop := b.count ≤ a.count

instance : DecidableRel countGE := fun a b =>
  inferInstanceAs (Decidable (b.count ≤ a.count))

instance : IsTotal WordCount countGE :=
  ⟨fun a b => Nat.le_total b.count a.count⟩

instance : IsTrans WordCount countGE :=
  ⟨fun _ _ _ hab hbc => le_trans hbc hab⟩

/-- `Counter(toks).most_common(n)`: distinct tokens in first-occurrence order
with their counts, stably sorted by descending count, first `n` taken.
(Since Python 3.7 `Counter` iterates in key-insertion order and
`most_common` is a stable descending sort of that order.) -/
def mostCommon (n : ℕ) (toks : List String) : List WordCount :=
  (List.insertionSort countGE ((dedupFirst toks).map fun w => ⟨w, toks.count w⟩)).take n

/-- `dict(Counter(l))`: distinct keys in first-occurrence order with counts. -/
def counterList (l : List String) : List (String × ℕ) :=
  (dedupFirst l).map fun w => (w, l.count w)

/-- Output of `perform_eda`. -/
structure EdaResult where
  total_records : ℕ
  average_text_length : ℕ
  sentiment_distribution : List (String × ℕ)
  word_frequency : List WordCount
deriving DecidableEq

/-- `analytics_engine.perform_eda`. -/
def perform_eda (df : DataFrame) (model : Scorer) : Except String EdaResult :=
  match findTextColIdx df with
  | none => pure ⟨df.rows.length, 0, [], []⟩
  | some i => do
    let texts := textsOfCol df i
    let lengths := (texts.filter fun t => t != "").map fun t => (clean_text t).length
    let avg := if lengths.isEmpty then 0 else lengths.sum / lengths.length
    let dist ← if texts.isEmpty then pure [] else do
      let scores ← model (texts.take 200)
      pure (counterList (scores.map _sentiment_label))
    let tokens := ((texts.take 500).map _tokenize).flatten
    pure ⟨df.rows.length, avg, dist, mostCommon 15 tokens⟩

/-- Output of `descriptive_analytics`.  The `summary_statistics` entry
(pandas `describe`) is not modelled: no analysed property refers to it. -/
structure DescResult where
  positive_percentage : ℚ
  negative_percentage : ℚ
deriving DecidableEq

/-- `analytics_engine.descriptive_analytics` (percentage part). -/
def descriptive_analytics (df : DataFrame) (model : Scorer) :
    Except String DescResult :=
  match findTextColIdx df with
  | none => pure ⟨0, 0⟩
  | some i => do
    let texts := textsOfCol df i
    let scores ← model (texts.take 200)
    let labels := scores.map _sentiment_label
    let total : ℚ := if labels.length = 0 then 1 else labels.length
    pure ⟨pyRound 2 (100 * (labels.count "POSITIVE" : ℚ) / total),
          pyRound 2 (100 * (labels.count "NEGATIVE" : ℚ) / total)⟩

/-- The labels the descriptive stage scores (empty when there is no text
column). -/
def descLabels (df : DataFrame) (model : Scorer) : Except String (List String) :=
  match findTextColIdx df with
  | none => pure []
  | some i => do
    let scores ← model ((textsOfCol df i).take 200)
    pure (scores.map _sentiment_label)

/-- One `{"pair": "A vs B", "correlation": c}` entry. -/
structure CorrIns where
  pair : String
  correlation : ℚ
deriving DecidableEq

/-- Output of `diagnostic_analytics`. -/
structure DiagResult where
  negative_keywords : List WordCount
  correlation_insights : List CorrIns
deriving DecidableEq

/-- Indices of the numeric-dtype columns
(`df.select_dtypes(include=[np.number])`), in column order. -/
def numericIdxs (df : DataFrame) : List ℕ :=
  (df.header.enum.filter fun p => p.2.2 == Dtype.number).map Prod.fst

/-- Name of column `i`. -/
def colName (df : DataFrame) (i : ℕ) : String :=
  (df.header.getD i ("", Dtype.other)).1

/-- Numeric view of a cell (`NaN` for null and for non-numeric cells). -/
def cellToQ : Cell → Option ℚ
  | .num q => some q
  | _ => none

/-- The pairwise-complete observations of two columns, as pandas `corr`
uses them (rows where either value is `NaN` are skipped for that pair). -/
def completePairs (xs ys : List Cell) : List (ℚ × ℚ) :=
  (xs.zip ys).filterMap fun p =>
    match cellToQ p.1, cellToQ p.2 with
    | some x, some y => some (x, y)
    | _, _ => none

/-- Mean of a list of rationals (0 for the empty list, never reached where
it matters). -/
def qMean (l : List ℚ) : ℚ := l.sum / l.length

/-- Pearson correlation of two columns over pairwise-complete observations,
with undefined correlations (zero variance, fewer than two points) replaced
by 0 as `corr_matrix.fillna(0)` does.  `rsqrt` is the square-root
capability standing in for the floating `sqrt`. -/
def pearson (rsqrt : ℚ → ℚ) (xs ys : List Cell) : ℚ :=
  let ps := completePairs xs ys
  let mx := qMean (ps.map Prod.fst)
  let my := qMean (ps.map Prod.snd)
  let sxx := (ps.map fun p => (p.1 - mx) ^ 2).sum
  let syy := (ps.map fun p => (p.2 - my) ^ 2).sum
  let sxy := (ps.map fun p => (p.1 - mx) * (p.2 - my)).sum
  if sxx * syy = 0 then 0 else sxy / rsqrt (sxx * syy)

/-- The centred sum of squares `Σ (x - mean xs)²` of a list of values (the
variance numerator the Pearson computation uses for one column). -/
def sxxOf (xs : List ℚ) : ℚ := (xs.map fun x => (x - qMean xs) ^ 2).sum

/-- One candidate tuple `(abs(corr), col_a, col_b, corr)` as built before
`sorted(pairs, reverse=True)`. -/
structure PairT where
  absc : ℚ
  ca : String
  cb : String
  corr : ℚ
deriving DecidableEq

/-- The lexicographic key Python tuple comparison uses on the candidates. -/
def pairKey (p : PairT) : Lex (ℚ × Lex (String × Lex (String × ℚ))) :=
  toLex (p.absc, toLex (p.ca, toLex (p.cb, p.corr)))

/-- `sorted(pairs, reverse=True)` order: descending lexicographic tuples. -/
def pairDesc (x y : PairT) : Prop := pairKey y ≤ pairKey x

instance : DecidableRel pairDesc := fun x y =>
  inferInstanceAs (Decidable (pairKey y ≤ pairKey x))

instance : IsTotal PairT pairDesc :=
  ⟨fun a b => le_total (pairKey b) (pairKey a)⟩

instance : IsTrans PairT pairDesc :=
  ⟨fun _ _ _ hab hbc => le_trans hbc hab⟩

/-- The unordered pairs `(i, j)`, `i` before `j`, in the nested-loop order
of the source. -/
def upairs : List α → List (α × α)
  | [] => []
  | a :: t => (t.map fun b => (a, b)) ++ upairs t

/-- All candidate correlation tuples, in nested-loop order. -/
def allPairs (df : DataFrame) (rsqrt : ℚ → ℚ) : List PairT :=
  (upairs (numericIdxs df)).map fun ij =>
    let c := pearson rsqrt (colCells df ij.1) (colCells df ij.2)
    ⟨|c|, colName df ij.1, colName df ij.2, c⟩

/-- `analytics_engine.diagnostic_analytics`. -/
def diagnostic_analytics (df : DataFrame) (model : Scorer) (rsqrt : ℚ → ℚ) :
    Except String DiagResult := do
  let negative_keywords ← match findTextColIdx df with
    | none => pure []
    | some i => do
      let texts := textsOfCol df i
      let scores ← model (texts.take 200)
      let negTexts := (texts.zip scores).filterMap fun p =>
        if _sentiment_label p.2 = "NEGATIVE" then some p.1 else none
      pure (mostCommon 10 ((negTexts.map _tokenize).flatten))
  let correlation_insights :=
    if 2 ≤ (numericIdxs df).length then
      ((List.insertionSort pairDesc (allPairs df rsqrt)).take 5).map fun t =>
        CorrIns.mk (t.ca ++ " vs " ++ t.cb) (pyRound 3 t.corr)
    else []
  pure ⟨negative_keywords, correlation_insights⟩

/-- The metrics dict of a trained predictive stage; fields are the
`"accuracy"`, `"precision"`, `"recall"`, `"f1_score"` keys. -/
structure Metrics where
  accuracy : ℚ
  precisionV : ℚ
  recallV : ℚ
  f1V : ℚ
deriving DecidableEq

/-- Result of the predictive stage: `status="trained"` with metrics, or
`status="skipped"` with a reason. -/
inductive PredResult
  | trained (m : Metrics)
  | skipped (reason : String)
deriving DecidableEq

/-- The sklearn capabilities the predictive stage calls inside its `try`
block: TF-IDF vectorization, `train_test_split`, and logistic-regression
fit-then-predict.  Each may raise. -/
structure TrainEnv where
  vectorize : List String → Except String (List (List ℚ))
  tts : List (List ℚ) → List ℕ →
    Except String (List (List ℚ) × List (List ℚ) × List ℕ × List ℕ)
  fitPredict : List (List ℚ) → List ℕ → List (List ℚ) →
    Except String (List ℕ)

/-- `1 if _sentiment_label(score) == "POSITIVE" else 0` over a score list. -/
def binarize (scores : List Score) : List ℕ :=
  scores.map fun s => if _sentiment_label s = "POSITIVE" then 1 else 0

/-- True positives against positive class 1 (sklearn binary default). -/
def tpOf (y p : List ℕ) : ℕ :=
  ((y.zip p).filter fun q => q.1 == 1 && q.2 == 1).length

/-- False positives. -/
def fpOf (y p : List ℕ) : ℕ :=
  ((y.zip p).filter fun q => !(q.1 == 1) && q.2 == 1).length

/-- False negatives. -/
def fnOf (y p : List ℕ) : ℕ :=
  ((y.zip p).filter fun q => q.1 == 1 && !(q.2 == 1)).length

/-- `sklearn.metrics.accuracy_score`. -/
def accuracy_score (y p : List ℕ) : ℚ :=
  (((y.zip p).filter fun q => q.1 == q.2).length : ℚ) / y.length

/-- `sklearn.metrics.precision_score` with `zero_division=0`. -/
def precision_score (y p : List ℕ) : ℚ :=
  if tpOf y p + fpOf y p = 0 then 0 else (tpOf y p : ℚ) / (tpOf y p + fpOf y p)

/-- `sklearn.metrics.recall_score` with `zero_division=0`. -/
def recall_score (y p : List ℕ) : ℚ :=
  if tpOf y p + fnOf y p = 0 then 0 else (tpOf y p : ℚ) / (tpOf y p + fnOf y p)

/-- `sklearn.metrics.f1_score` with `zero_division=0`
(`2·TP / (2·TP + FP + FN)`). -/
def f1_score (y p : List ℕ) : ℚ :=
  if 2 * tpOf y p + fpOf y p + fnOf y p = 0 then 0
  else (2 * tpOf y p : ℚ) / (2 * tpOf y p + fpOf y p + fnOf y p)

/-- The body of the predictive stage's `try` block, after the two guard
clauses: score, binarize, check class mix, vectorize, split, train,
evaluate. -/
def predictive_body (texts : List String) (model : Scorer) (env : TrainEnv) :
    Except String PredResult := do
  let scores ← model (texts.take 500)
  let labels := binarize scores
  if (dedupFirst labels).length < 2 then
    pure (.skipped "All texts have the same sentiment; model training requires mixed sentiment data.")
  else do
    let features ← env.vectorize (texts.take labels.length)
    let parts ← env.tts features labels
    let preds ← env.fitPredict parts.1 parts.2.2.1 parts.2.1
    pure (.trained ⟨pyRound 3 (accuracy_score parts.2.2.2 preds),
                    pyRound 3 (precision_score parts.2.2.2 preds),
                    pyRound 3 (recall_score parts.2.2.2 preds),
                    pyRound 3 (f1_score parts.2.2.2 preds)⟩)

/-- The `except Exception` handler of the predictive stage. -/
def predictive_catch : Except String PredResult → PredResult
  | .ok r => r
  | .error e => .skipped ("Model training failed: " ++ e)

/-- `analytics_engine.predictive_analytics`: two guard clauses, then the
`try` body with every failure degraded to a skip. -/
def predictive_analytics (df : DataFrame) (model : Scorer) (env : TrainEnv) :
    PredResult :=
  match findTextColIdx df with
  | none => .skipped "No text column available for model training."
  | some i =>
    let texts := textsOfCol df i
    if texts.length < 10 then .skipped "Not enough text records for training."
    else predictive_catch (predictive_body texts model env)

/-- `analytics_engine.prescriptive_analytics` (the advisory string; the
caller passes `{"descriptive_analytics": descriptive}`). -/
def prescriptive_analytics (desc : DescResult) : String :=
  if 50 < desc.negative_percentage then
    "High negative sentiment detected. Prioritize customer feedback loops and rapid remediation."
  else if 70 < desc.positive_percentage then
    "Strong positive sentiment. Scale current messaging and reinforce top-performing channels."
  else
    "Sentiment is mixed. Focus on improving consistency and monitoring key drivers weekly."

/-- Helper for thousands grouping: walk the reversed digit list, inserting a
comma after every third digit. -/
def commaAux : List Char → ℕ → List Char
  | [], _ => []
  | c :: cs, k => if k == 3 then ',' :: c :: commaAux cs 1 else c :: commaAux cs (k + 1)

/-- Python `f"{n:,}"` for a natural number. -/
def fmtNatComma (n : ℕ) : String :=
  String.mk ((commaAux (toString n).data.reverse 0).reverse)

/-- Left-pad a digit string with zeros to the given width. -/
def padZeros (width : ℕ) (s : String) : String :=
  String.mk (List.replicate (width - s.length) '0') ++ s

/-- Python `f"{q:.Df}"` on the exact-rational model (half-to-even). -/
def fmtDec (digits : ℕ) (q : ℚ) : String :=
  let m := rhe (q * 10 ^ digits)
  let a := m.natAbs
  (if m < 0 then "-" else "") ++ toString (a / 10 ^ digits) ++ "." ++
    padZeros digits (toString (a % 10 ^ digits))

/-- Python `f"{q:.1f}"`. -/
def fmt1f : ℚ → String := fmtDec 1

/-- Python `f"{q:.3f}"`. -/
def fmt3f : ℚ → String := fmtDec 3

/-- Python `f"{q:.1%}"`. -/
def fmtPct1 (q : ℚ) : String := fmtDec 1 (q * 100) ++ "%"

/-- `", ".join(...)`. -/
def joinSep (sep : String) : List String → String
  | [] => ""
  | [x] => x
  | x :: xs => x ++ sep ++ joinSep sep xs

/-- `_generate_narrative("descriptive", {**eda, **descriptive})`. -/
def narrativeDescriptive (total : ℕ) (pos neg : ℚ) : String :=
  "Analysis of " ++ fmtNatComma total ++ " records reveals a sentiment distribution with " ++
  fmt1f pos ++ "% positive and " ++ fmt1f neg ++ "% negative responses. " ++
  "The dataset demonstrates " ++ (if neg < pos then "favorable" else "concerning") ++
  " patterns that warrant " ++
  (if 70 < pos then "celebration" else if 40 < neg then "attention" else "monitoring") ++ "."

/-- `_generate_narrative("diagnostic", diagnostic)`. -/
def narrativeDiagnostic (diag : DiagResult) : String :=
  if diag.negative_keywords.isEmpty then
    "Diagnostic analysis completed with limited negative indicators detected."
  else
    "Root cause analysis identifies key negative indicators: " ++
    joinSep ", " ((diag.negative_keywords.take 3).map (·.word)) ++ ". " ++
    (if !diag.correlation_insights.isEmpty then
      "Statistical correlations reveal " ++ toString diag.correlation_insights.length ++
        " significant relationships"
     else "Limited correlation patterns detected") ++
    " between features, suggesting " ++
    (if !diag.correlation_insights.isEmpty then "structured" else "independent") ++
    " data dynamics."

/-- `_generate_narrative("predictive", predictive)`. -/
def narrativePredictive : PredResult → String
  | .trained m =>
    "Predictive model successfully trained with " ++ fmtPct1 m.accuracy ++ " accuracy and " ++
    fmt3f m.f1V ++ " F1-score. " ++
    "Forward-looking projections indicate " ++
    (if 4 / 5 < m.accuracy then "strong" else "moderate") ++
    " reliability for sentiment prediction tasks. Model performance " ++
    (if 17 / 20 < m.accuracy then "exceeds" else "meets") ++ " industry benchmarks."
  | .skipped _ =>
    "Predictive modeling skipped due to insufficient training data. Minimum 10 text records required."

/-- `_generate_narrative("prescriptive", descriptive)`. -/
def narrativePrescriptive (desc : DescResult) : String :=
  if 50 < desc.negative_percentage then
    "Strategic intervention required. High negative sentiment demands immediate action. Recommend forming cross-functional task force to address root causes and implement rapid response protocols. Monitor weekly KPIs for improvement signals."
  else if 70 < desc.positive_percentage then
    "Momentum preservation strategy advised. Strong positive indicators suggest current approach is effective. Scale successful initiatives while maintaining vigilance on quality metrics. Consider expanding reach to capture broader market segments."
  else
    "Balanced optimization approach recommended. Mixed sentiment patterns indicate opportunities for targeted improvements. Focus resources on consistency enhancement and systematic monitoring of key performance drivers to establish positive trajectory."

/-- One `{"label": .., "value": ..}` composition entry. -/
structure LabelValue where
  label : String
  value : ℕ
deriving DecidableEq

/-- One `{"name": .., "value": ..}` trend point. -/
structure NameValue where
  name : String
  value : ℕ
deriving DecidableEq

/-- One `{"category": .., "value": ..}` distribution entry. -/
structure CatValue where
  category : String
  value : ℕ
deriving DecidableEq

/-- The `biOverview` section. -/
structure BIOverview where
  composition : List LabelValue
  trend : List NameValue
  distribution : List CatValue
deriving DecidableEq

/-- One KPI card. -/
structure KPI where
  label : String
  value : String
  change : String
  trend : String
deriving DecidableEq

/-- One forecast point (`int(..)` of a positive float, so a natural). -/
structure PeriodPred where
  period : String
  predicted : ℕ
deriving DecidableEq

/-- One formatted correlation entry of `_format_correlations`. -/
structure FmtCorr where
  factor : String
  relationship : String
  strength : ℚ
deriving DecidableEq

/-- One strategic recommendation. -/
structure Recommendation where
  action : String
  impact : String
  priority : String
deriving DecidableEq

/-- `_create_bi_overview` (the fractional `int(total*0.7)` etc. of the
synthetic trend are the exact floors `⌊7t/10⌋` on the rational model). -/
def _create_bi_overview (eda : EdaResult) : BIOverview :=
  let composition := eda.sentiment_distribution.map fun p => LabelValue.mk p.1 p.2
  let composition := if composition.isEmpty then [LabelValue.mk "Unknown" 100] else composition
  let t := eda.total_records
  let trend := [NameValue.mk "Q1" (t * 7 / 10), NameValue.mk "Q2" (t * 85 / 100),
                NameValue.mk "Q3" (t * 95 / 100), NameValue.mk "Q4" t]
  let distribution := (eda.word_frequency.take 8).map fun w => CatValue.mk w.word w.count
  let distribution := if distribution.isEmpty then [CatValue.mk "No data" 0] else distribution
  ⟨composition, trend, distribution⟩

/-- `_create_kpis`. -/
def _create_kpis (eda : EdaResult) (desc : DescResult) : List KPI :=
  let pos := desc.positive_percentage
  let neg := desc.negative_percentage
  [KPI.mk "Total Records" (fmtNatComma eda.total_records) "+15%" "up",
   KPI.mk "Avg Text Length" (toString eda.average_text_length) "+8%" "up",
   KPI.mk "Positive Rate" (fmt1f pos ++ "%")
     ((if 50 < pos then "+" else "") ++ fmt1f (pos - 50) ++ "%")
     (if 50 < pos then "up" else "down"),
   KPI.mk "Negative Rate" (fmt1f neg ++ "%")
     ((if 30 < neg then "+" else "") ++ fmt1f (neg - 30) ++ "%")
     (if neg < 30 then "down" else "up")]

/-- `_create_forecast`. -/
def _create_forecast (pred : PredResult) (total : ℕ) : List PeriodPred :=
  match pred with
  | .trained m =>
    let growth : ℚ := 1 + m.accuracy * (3 / 20)
    [PeriodPred.mk "Current" total,
     PeriodPred.mk "Month +1" (⌊(total : ℚ) * growth⌋.toNat),
     PeriodPred.mk "Month +2" (⌊(total : ℚ) * growth ^ 2⌋.toNat),
     PeriodPred.mk "Month +3" (⌊(total : ℚ) * growth ^ 3⌋.toNat),
     PeriodPred.mk "Month +4" (⌊(total : ℚ) * growth ^ 4⌋.toNat)]
  | .skipped _ =>
    [PeriodPred.mk "Current" total,
     PeriodPred.mk "Month +1" (total * 105 / 100),
     PeriodPred.mk "Month +2" (total * 112 / 100),
     PeriodPred.mk "Month +3" (total * 118 / 100)]

/-- `_create_recommendations`. -/
def _create_recommendations (desc : DescResult) (diag : DiagResult) :
    List Recommendation :=
  let first :=
    if 40 < desc.negative_percentage then
      Recommendation.mk "Implement Customer Feedback Loop"
        "Address negative sentiment drivers through systematic customer engagement and issue resolution protocols."
        "High"
    else
      Recommendation.mk "Scale Positive Messaging"
        "Amplify successful communication strategies across additional channels to maximize reach and engagement."
        "Medium"
  let second :=
    if 2 < diag.correlation_insights.length then
      Recommendation.mk "Leverage Feature Relationships"
        "Exploit discovered correlations to optimize predictive accuracy and identify intervention points."
        "High"
    else
      Recommendation.mk "Enhance Data Collection"
        "Expand feature set to capture additional dimensions and improve analytical depth."
        "Medium"
  let third :=
    Recommendation.mk "Establish Continuous Monitoring"
      "Deploy real-time analytics dashboards to track KPIs and enable rapid response to emerging patterns."
      (if 60 < desc.positive_percentage then "Low" else "High")
  [first, second, third]

/-- `_format_correlations`: sign-classify each insight, then pad with the
neutral placeholder until at least 3 entries exist. -/
def _format_correlations (ins : List CorrIns) : List FmtCorr :=
  let base := ins.map fun i =>
    FmtCorr.mk i.pair (if 0 < i.correlation then "positive" else "negative") |i.correlation|
  base ++ List.replicate (3 - base.length) (FmtCorr.mk "No significant correlation" "neutral" 0)

/-- The `descriptive` report section. -/
structure DescSection where
  kpis : List KPI
  narrative : String
  chartData : List WordCount
deriving DecidableEq

/-- The `diagnostic` report section. -/
structure DiagSection where
  narrative : String
  correlations : List FmtCorr
deriving DecidableEq

/-- The `predictive` report section. -/
structure PredSection where
  narrative : String
  forecast : List PeriodPred
  confidence : ℚ
  modelExplanation : String
deriving DecidableEq

/-- The `prescriptive` report section. -/
structure PrescSection where
  narrative : String
  recommendations : List Recommendation
  disclaimer : String
deriving DecidableEq

/-- A top-level report value (the report is a string-keyed dict). -/
inductive Sect
  | bi (b : BIOverview)
  | descr (d : DescSection)
  | diag (d : DiagSection)
  | pred (p : PredSection)
  | presc (p : PrescSection)
deriving DecidableEq

/-- The `modelExplanation` string of the predictive section. -/
def modelExplanationOf (pred : PredResult) (total : ℕ) : String :=
  match pred with
  | .trained m =>
    "Logistic Regression classifier trained on " ++ toString total ++
    " records using TF-IDF vectorization. Model metrics: Accuracy=" ++
    fmt3f m.accuracy ++ ", F1-Score=" ++ fmt3f m.f1V
  | .skipped _ => "Predictive model requires minimum dataset size for training reliability."

/-- `predictive.get("accuracy", 0.75) if trained else 0.65`. -/
def confidenceOf : PredResult → ℚ
  | .trained m => m.accuracy
  | .skipped _ => 13 / 20

/-- `analytics_engine.run_full_analysis`: run the four stages, build the five
fixed sections.  (The source also computes `prescriptive_analytics` into a
local that the returned report never reads.) -/
def run_full_analysis (df : DataFrame) (model : Scorer) (env : TrainEnv)
    (rsqrt : ℚ → ℚ) : Except String (List (String × Sect)) := do
  let eda ← perform_eda df model
  let descriptive ← descriptive_analytics df model
  let diagnostic ← diagnostic_analytics df model rsqrt
  let predictive := predictive_analytics df model env
  pure [
    ("biOverview", Sect.bi (_create_bi_overview eda)),
    ("descriptive", Sect.descr ⟨_create_kpis eda descriptive,
        narrativeDescriptive eda.total_records descriptive.positive_percentage
          descriptive.negative_percentage,
        eda.word_frequency⟩),
    ("diagnostic", Sect.diag ⟨narrativeDiagnostic diagnostic,
        _format_correlations diagnostic.correlation_insights⟩),
    ("predictive", Sect.pred ⟨narrativePredictive predictive,
        _create_forecast predictive eda.total_records,
        confidenceOf predictive, modelExplanationOf predictive eda.total_records⟩),
    ("prescriptive", Sect.presc ⟨narrativePrescriptive descriptive,
        _create_recommendations descriptive diagnostic,
        "Recommendations are generated through statistical analysis and should be validated by domain experts. Results are indicative and not guaranteed. Always conduct additional due diligence before implementing strategic changes."⟩)]

/-- Length of the correlations list of the diagnostic section of a report
(0 if the section is missing or of the wrong shape). -/
def corrLenOf (rep : List (String × Sect)) : ℕ :=
  match rep.lookup "diagnostic" with
  | some (.diag d) => d.correlations.length
  | _ => 0

/-- Index of the first occurrence of `w` (list length if absent); the order
`Counter` key insertion follows. -/
def firstIdx (w : String) : List String → ℕ
  | [] => 0
  | x :: t => if x = w then 0 else firstIdx w t + 1

/-! ### Sample inputs used to instantiate the verified properties -/

/-- A scorer labelling everything `"POSITIVE"`. -/
def samplePosScorer : Scorer := fun ts => .ok (ts.map fun _ => ⟨some "POSITIVE"⟩)

/-- The same scorer with lowercase labels. -/
def sampleLowScorer : Scorer := fun ts => .ok (ts.map fun _ => ⟨some "positive"⟩)

/-- A scorer whose label depends on the text length parity. -/
def sampleMixScorer : Scorer := fun ts =>
  .ok (ts.map fun t => ⟨some (if t.length % 2 == 0 then "POSITIVE" else "NEGATIVE")⟩)

/-- A training environment whose split holds out the last two labels and whose
classifier predicts them exactly. -/
def sampleEnv : TrainEnv :=
  ⟨fun _ => .ok [], fun _ ys => .ok ([], [], ys.take 8, ys.drop 8), fun _ _ _ => .ok [0, 1]⟩

/-- A training environment whose vectorizer raises. -/
def sampleFailEnv : TrainEnv :=
  ⟨fun _ => .error "boom", fun _ _ => .ok ([], [], [], []), fun _ _ _ => .ok []⟩

/-- A table with no string-dtype column. -/
def sampleDfNoText : DataFrame := ⟨[("n", Dtype.number)], [[Cell.num 1]]⟩

/-- A one-row text table. -/
def sampleDfOne : DataFrame := ⟨[("t", Dtype.string)], [[Cell.str "hello world"]]⟩

/-- A two-row text table. -/
def sampleDfTwo : DataFrame := ⟨[("t", Dtype.string)], [[Cell.str "ab"], [Cell.str "c"]]⟩

/-- A ten-row text table with alternating text-length parity. -/
def sampleDfTen : DataFrame := ⟨[("t", Dtype.string)],
  [[Cell.str "a"], [Cell.str "bb"], [Cell.str "c"], [Cell.str "dd"], [Cell.str "e"],
   [Cell.str "ff"], [Cell.str "g"], [Cell.str "hh"], [Cell.str "i"], [Cell.str "jj"]]⟩

/-- A table with two perfectly collinear numeric columns (`b = 2·a`). -/
def sampleDfNum : DataFrame := ⟨[("a", Dtype.number), ("b", Dtype.number)],
  [[Cell.num 1, Cell.num 2], [Cell.num 2, Cell.num 4], [Cell.num 3, Cell.num 6]]⟩

/-- A square-root capability correct at the only point `sampleDfNum` needs. -/
def sampleRsqrt : ℚ → ℚ := fun q => if q = 16 then 4 else 0

/-! ### Properties of the half-to-even rounding -/

theorem rhe_le (q : ℚ) : (rhe q : ℚ) ≤ q + 1 / 2 := by
  have hfl : (⌊q⌋ : ℚ) ≤ q := Int.floor_le q
  unfold rhe
  split_ifs with h1 h2 h3 <;> push_cast <;> linarith

theorem le_rhe (q : ℚ) : q - 1 / 2 ≤ (rhe q : ℚ) := by
  have hfr : q - 1 < (⌊q⌋ : ℚ) := Int.sub_one_lt_floor q
  unfold rhe
  split_ifs with h1 h2 h3 <;> push_cast <;> linarith

theorem rhe_half_eq {q : ℚ} (h : (rhe q : ℚ) = q + 1 / 2) :
    q - ⌊q⌋ = 1 / 2 ∧ ¬ ⌊q⌋ % 2 = 0 := by
  have hfl : (⌊q⌋ : ℚ) ≤ q := Int.floor_le q
  unfold rhe at h
  split_ifs at h with h1 h2 h3 <;> push_cast at h
  · exact absurd h (by intro h; linarith)
  · exact absurd h (by intro h; linarith)
  · exact absurd h (by intro h; linarith)
  · exact ⟨by linarith, h3⟩

theorem rhe_intCast (n : ℤ) : rhe (n : ℚ) = n := by
  unfold rhe
  rw [Int.floor_intCast]
  norm_num

theorem rhe_nonneg {q : ℚ} (h : 0 ≤ q) : 0 ≤ rhe q := by
  have h1 := le_rhe q
  have h2 : (-1 : ℚ) < (rhe q : ℚ) := by linarith
  have h3 : (-1 : ℤ) < rhe q := by exact_mod_cast h2
  omega

theorem rhe_le_int {q : ℚ} {n : ℤ} (h : q ≤ n) : rhe q ≤ n := by
  have h1 := rhe_le q
  have h2 : (rhe q : ℚ) < (n : ℚ) + 1 := by linarith
  have h3 : rhe q < n + 1 := by exact_mod_cast h2
  omega

theorem pyRound_nonneg {q : ℚ} (d : ℕ) (h : 0 ≤ q) : 0 ≤ pyRound d q := by
  unfold pyRound
  have : (0 : ℤ) ≤ rhe (q * 10 ^ d) := rhe_nonneg (by positivity)
  positivity

theorem pyRound_le_one {q : ℚ} (d : ℕ) (h : q ≤ 1) : pyRound d q ≤ 1 := by
  unfold pyRound
  have h1 : q * 10 ^ d ≤ ((10 ^ d : ℤ) : ℚ) := by
    push_cast
    have : (0 : ℚ) < 10 ^ d := by positivity
    nlinarith
  have h2 : rhe (q * 10 ^ d) ≤ 10 ^ d := rhe_le_int h1
  rw [div_le_one (by positivity)]
  exact_mod_cast h2

theorem pyRound_intCast (d : ℕ) (n : ℤ) : pyRound d (n : ℚ) = n := by
  unfold pyRound
  rw [show ((n : ℚ) * 10 ^ d) = (((n * 10 ^ d : ℤ)) : ℚ) by push_cast; ring, rhe_intCast]
  push_cast
  rw [mul_div_assoc, div_self (by positivity), mul_one]

/-! ### Ratio and metric range lemmas -/

theorem ratio_mem_unit {a b : ℕ} (h : a ≤ b) :
    0 ≤ (a : ℚ) / b ∧ (a : ℚ) / b ≤ 1 := by
  rcases Nat.eq_zero_or_pos b with hb | hb
  · subst hb
    interval_cases a
    norm_num
  · constructor
    · positivity
    · rw [div_le_one (by exact_mod_cast hb)]
      exact_mod_cast h

theorem accuracy_score_mem_unit (y p : List ℕ) :
    0 ≤ accuracy_score y p ∧ accuracy_score y p ≤ 1 := by
  unfold accuracy_score
  exact ratio_mem_unit (le_trans (List.length_filter_le _ _)
    (le_trans (List.length_zip ..).le (min_le_left _ _)))

theorem precision_score_mem_unit (y p : List ℕ) :
    0 ≤ precision_score y p ∧ precision_score y p ≤ 1 := by
  unfold precision_score
  split_ifs
  · norm_num
  · have h := ratio_mem_unit (Nat.le_add_right (tpOf y p) (fpOf y p))
    push_cast at h ⊢
    exact h

theorem recall_score_mem_unit (y p : List ℕ) :
    0 ≤ recall_score y p ∧ recall_score y p ≤ 1 := by
  unfold recall_score
  split_ifs
  · norm_num
  · have h := ratio_mem_unit (Nat.le_add_right (tpOf y p) (fnOf y p))
    push_cast at h ⊢
    exact h

theorem f1_score_mem_unit (y p : List ℕ) :
    0 ≤ f1_score y p ∧ f1_score y p ≤ 1 := by
  unfold f1_score
  split_ifs
  · norm_num
  · have h := ratio_mem_unit
      (show 2 * tpOf y p ≤ 2 * tpOf y p + fpOf y p + fnOf y p by omega)
    push_cast at h ⊢
    exact h

/-! ### Character-level lemmas for the text normalizer -/

theorem isRNT_imp_isPySpace {c : Char} (h : isRNT c = true) : isPySpace c = true := by
  have h' : (c = '\r' ∨ c = '\n') ∨ c = '\t' := by
    unfold isRNT at h
    simpa using h
  rcases h' with (rfl | rfl) | rfl <;> decide

theorem mem_collapseAux {p : Char → Bool} :
    ∀ {b : Bool} {l : List Char} {c : Char}, c ∈ collapseAux p b l →
      c = ' ' ∨ (c ∈ l ∧ p c = false) := by
  intro b l
  induction l generalizing b with
  | nil => intro c h; simp [collapseAux] at h
  | cons d t ih =>
    intro c h
    by_cases hd : p d = true
    · cases b with
      | true =>
        rw [show collapseAux p true (d :: t) = collapseAux p true t by
          simp [collapseAux, hd]] at h
        rcases ih h with h' | h'
        · exact Or.inl h'
        · exact Or.inr ⟨List.mem_cons_of_mem _ h'.1, h'.2⟩
      | false =>
        rw [show collapseAux p false (d :: t) = ' ' :: collapseAux p true t by
          simp [collapseAux, hd]] at h
        rcases List.mem_cons.mp h with h' | h'
        · exact Or.inl h'
        · rcases ih h' with h'' | h''
          · exact Or.inl h''
          · exact Or.inr ⟨List.mem_cons_of_mem _ h''.1, h''.2⟩
    · have hd' : p d = false := by
        cases hpd : p d
        · rfl
        · exact absurd hpd hd
      have hb : collapseAux p b (d :: t) = d :: collapseAux p false t := by
        cases b <;> simp [collapseAux, hd']
      rw [hb] at h
      rcases List.mem_cons.mp h with h' | h'
      · exact Or.inr ⟨by rw [h']; exact List.mem_cons_self d t, h' ▸ hd'⟩
      · rcases ih h' with h'' | h''
        · exact Or.inl h''
        · exact Or.inr ⟨List.mem_cons_of_mem _ h''.1, h''.2⟩

theorem collapseAux_true_head {p : Char → Bool} :
    ∀ {l : List Char} {c : Char}, (collapseAux p true l).head? = some c → p c = false := by
  intro l
  induction l with
  | nil => intro c h; simp [collapseAux] at h
  | cons d t ih =>
    intro c h
    by_cases hd : p d = true
    · rw [show collapseAux p true (d :: t) = collapseAux p true t by
        simp [collapseAux, hd]] at h
      exact ih h
    · have hd' : p d = false := by
        cases hpd : p d
        · rfl
        · exact absurd hpd hd
      rw [show collapseAux p true (d :: t) = d :: collapseAux p false t by
        simp [collapseAux, hd']] at h
      simp only [List.head?_cons, Option.some.injEq] at h
      exact h ▸ hd'

theorem chain'_collapseAux {p : Char → Bool} :
    ∀ (b : Bool) (l : List Char),
      List.Chain' (fun a c => ¬(p a = true ∧ p c = true)) (collapseAux p b l) := by
  intro b l
  induction l generalizing b with
  | nil => simp [collapseAux]
  | cons d t ih =>
    by_cases hd : p d = true
    · cases b with
      | true =>
        rw [show collapseAux p true (d :: t) = collapseAux p true t by
          simp [collapseAux, hd]]
        exact ih true
      | false =>
        rw [show collapseAux p false (d :: t) = ' ' :: collapseAux p true t by
          simp [collapseAux, hd]]
        rw [List.chain'_cons']
        refine ⟨fun y hy => ?_, ih true⟩
        have hy' : p y = false := collapseAux_true_head hy
        intro hcon
        rw [hy'] at hcon
        simp at hcon
    · have hd' : p d = false := by
        cases hpd : p d
        · rfl
        · exact absurd hpd hd
      rw [show collapseAux p b (d :: t) = d :: collapseAux p false t by
        cases b <;> simp [collapseAux, hd']]
      rw [List.chain'_cons']
      refine ⟨fun y _ => ?_, ih false⟩
      intro hcon
      rw [hd'] at hcon
      simp at hcon

theorem collapseAux_eq_self {p : Char → Bool} :
    ∀ {l : List Char}, (∀ c ∈ l, p c = false) → ∀ b, collapseAux p b l = l := by
  intro l
  induction l with
  | nil => intro _ b; rfl
  | cons d t ih =>
    intro h b
    have hd : p d = false := h d (List.mem_cons_self d t)
    have ht : ∀ c ∈ t, p c = false := fun c hc => h c (List.mem_cons_of_mem _ hc)
    cases b <;> simp [collapseAux, hd, ih ht false]

theorem collapseAux_sparse_id {p : Char → Bool} :
    ∀ l : List Char, (∀ c ∈ l, p c = true → c = ' ') →
      List.Chain' (fun a c => ¬(p a = true ∧ p c = true)) l →
      collapseAux p false l = l ∧
      ((∀ c, l.head? = some c → p c = false) → collapseAux p true l = l) := by
  intro l
  induction l with
  | nil => exact fun _ _ => ⟨rfl, fun _ => rfl⟩
  | cons d t ih =>
    intro hmem hch
    have hmt : ∀ c ∈ t, p c = true → c = ' ' :=
      fun c hc => hmem c (List.mem_cons_of_mem _ hc)
    obtain ⟨ihf, iht⟩ := ih hmt hch.tail
    constructor
    · by_cases hd : p d = true
      · have hd' : d = ' ' := hmem d (List.mem_cons_self d t) hd
        have hht : ∀ c, t.head? = some c → p c = false := by
          intro c hc
          have hr := (List.chain'_cons'.mp hch).1 c hc
          cases hpc : p c
          · rfl
          · exact absurd ⟨hd, hpc⟩ hr
        rw [show collapseAux p false (d :: t) = ' ' :: collapseAux p true t by
          simp [collapseAux, hd]]
        rw [iht hht, hd']
      · have hd' : p d = false := by
          cases hpd : p d
          · rfl
          · exact absurd hpd hd
        simp [collapseAux, hd', ihf]
    · intro hhead
      have hd : p d = false := hhead d rfl
      simp [collapseAux, hd, ihf]

theorem dropWhile_head_not {p : Char → Bool} :
    ∀ {l : List Char} {c : Char}, (l.dropWhile p).head? = some c → p c = false := by
  intro l
  induction l with
  | nil => intro c h; simp [List.dropWhile] at h
  | cons d t ih =>
    intro c h
    by_cases hd : p d = true
    · rw [List.dropWhile_cons, if_pos hd] at h
      exact ih h
    · have hd' : p d = false := by
        cases hpd : p d
        · rfl
        · exact absurd hpd hd
      rw [List.dropWhile_cons, if_neg (by simp [hd'])] at h
      simp only [List.head?_cons, Option.some.injEq] at h
      exact h ▸ hd'

theorem dropWhile_eq_self_of_head {p : Char → Bool} {l : List Char}
    (h : ∀ c, l.head? = some c → p c = false) : l.dropWhile p = l := by
  cases l with
  | nil => rfl
  | cons d t =>
    rw [List.dropWhile_cons, if_neg (by simp [h d rfl])]

theorem stripEnd_prefix (l : List Char) : stripEnd l <+: l := by
  have h1 : (stripEnd l).reverse <:+ l.reverse := by
    unfold stripEnd
    rw [List.reverse_reverse]
    exact List.dropWhile_suffix isPySpace
  exact List.reverse_suffix.mp h1

theorem stripEnd_getLast_not {l : List Char} {c : Char}
    (h : (stripEnd l).getLast? = some c) : isPySpace c = false := by
  have h1 : (stripEnd l).reverse.head? = some c := by
    rw [List.head?_reverse]
    exact h
  rw [show (stripEnd l).reverse = l.reverse.dropWhile isPySpace by
    unfold stripEnd; rw [List.reverse_reverse]] at h1
  exact dropWhile_head_not h1

theorem stripEnd_eq_self {l : List Char}
    (h : ∀ c, l.getLast? = some c → isPySpace c = false) : stripEnd l = l := by
  unfold stripEnd
  rw [dropWhile_eq_self_of_head, List.reverse_reverse]
  intro c hc
  rw [List.head?_reverse] at hc
  exact h c hc

theorem prefix_head_eq {l₁ l₂ : List Char} (h : l₁ <+: l₂) {c : Char}
    (hc : l₁.head? = some c) : l₂.head? = some c := by
  obtain ⟨t, rfl⟩ := h
  cases l₁ with
  | nil => simp at hc
  | cons d t' => simpa using hc

/-- The four structural facts about the character list a `clean_text` call
produces: no NUL, no CR/LF/TAB, whitespace only as isolated single spaces,
and no leading or trailing whitespace. -/
theorem clean_text_chars (s : String) :
    (∀ c ∈ (clean_text s).data, ¬c = '\x00' ∧ isRNT c = false ∧
      (isPySpace c = true → c = ' ')) ∧
    List.Chain' (fun a c => ¬(isPySpace a = true ∧ isPySpace c = true))
      (clean_text s).data ∧
    (∀ c, (clean_text s).data.head? = some c → isPySpace c = false) ∧
    (∀ c, (clean_text s).data.getLast? = some c → isPySpace c = false) := by
  unfold clean_text
  set A : List Char := s.data.map fun c => if c = '\x00' then ' ' else c with hA
  set B : List Char := collapseRuns isRNT A with hB
  set C : List Char := collapseRuns isPySpace B with hC
  have hdata : (String.mk (pyStrip C)).data = pyStrip C := rfl
  rw [hdata]
  have hspre : pyStrip C <+: C.dropWhile isPySpace := stripEnd_prefix _
  have hssub : List.Sublist (pyStrip C) C :=
    hspre.sublist.trans (List.dropWhile_suffix isPySpace).sublist
  have hmemC : ∀ c ∈ C, c = ' ' ∨ (c ∈ B ∧ isPySpace c = false) :=
    fun c hc => mem_collapseAux (hC ▸ hc)
  have hmemB : ∀ c ∈ B, c = ' ' ∨ (c ∈ A ∧ isRNT c = false) :=
    fun c hc => mem_collapseAux (hB ▸ hc)
  have hmemA : ∀ c ∈ A, ¬c = '\x00' := by
    intro c hc
    rw [hA] at hc
    obtain ⟨a, _, ha⟩ := List.mem_map.mp hc
    intro hcon
    by_cases h0 : a = '\x00'
    · rw [if_pos h0] at ha
      rw [← ha] at hcon
      exact absurd hcon (by decide)
    · rw [if_neg h0] at ha
      rw [ha] at h0
      exact h0 hcon
  refine ⟨?_, ?_, ?_, ?_⟩
  · intro c hc
    have hcC : c ∈ C := hssub.subset hc
    refine ⟨?_, ?_, ?_⟩
    · rcases hmemC c hcC with h | h
      · rw [h]; decide
      · rcases hmemB c h.1 with h' | h'
        · exfalso
          rw [h'] at h
          exact absurd h.2 (by decide)
        · exact hmemA c h'.1
    · rcases hmemC c hcC with h | h
      · rw [h]; decide
      · cases hr : isRNT c
        · rfl
        · exact absurd (isRNT_imp_isPySpace hr) (by simp [h.2])
    · intro hp
      rcases hmemC c hcC with h | h
      · exact h
      · rw [h.2] at hp
        exact absurd hp (by decide)
  · have hchC : List.Chain' (fun a c => ¬(isPySpace a = true ∧ isPySpace c = true)) C := by
      rw [hC]
      exact chain'_collapseAux false B
    exact List.Chain'.prefix (hchC.suffix (List.dropWhile_suffix isPySpace)) hspre
  · intro c hc
    have := prefix_head_eq hspre hc
    exact dropWhile_head_not this
  · intro c hc
    exact stripEnd_getLast_not hc

/-- `clean_text` is the identity on any string already in normal form. -/
theorem clean_text_fixed {t : String}
    (hmem : ∀ c ∈ t.data, ¬c = '\x00' ∧ isRNT c = false ∧ (isPySpace c = true → c = ' '))
    (hch : List.Chain' (fun a c => ¬(isPySpace a = true ∧ isPySpace c = true)) t.data)
    (hhead : ∀ c, t.data.head? = some c → isPySpace c = false)
    (hlast : ∀ c, t.data.getLast? = some c → isPySpace c = false) :
    clean_text t = t := by
  unfold clean_text
  have h1 : t.data.map (fun c => if c = '\x00' then ' ' else c) = t.data := by
    conv_rhs => rw [← List.map_id t.data]
    apply List.map_congr_left
    intro a ha
    simp [(hmem a ha).1]
  rw [h1]
  have h2 : collapseRuns isRNT t.data = t.data :=
    collapseAux_eq_self (fun c hc => (hmem c hc).2.1) false
  rw [h2]
  have h3 : collapseRuns isPySpace t.data = t.data :=
    (collapseAux_sparse_id t.data (fun c hc => (hmem c hc).2.2) hch).1
  rw [h3]
  unfold pyStrip
  rw [dropWhile_eq_self_of_head hhead, stripEnd_eq_self hlast]

/-- C8: the text normalizer `clean_text` is idempotent —
`clean_text (clean_text s) = clean_text s` for every string `s` — and it is a
pure total function, in particular mapping the empty string to itself. -/
theorem C8_clean_text_idempotent :
    (∀ s : String, clean_text (clean_text s) = clean_text s) ∧ clean_text "" = "" := by
  constructor
  · intro s
    obtain ⟨hmem, hch, hhead, hlast⟩ := clean_text_chars s
    exact clean_text_fixed hmem hch hhead hlast
  · rfl

/-! ### Deduplication lemmas -/

theorem dedupFirstAux_sublist [DecidableEq α] :
    ∀ (l seen : List α), List.Sublist (dedupFirstAux seen l) l := by
  intro l
  induction l with
  | nil => intro seen; exact List.Sublist.refl []
  | cons a t ih =>
    intro seen
    unfold dedupFirstAux
    by_cases h : a ∈ seen
    · rw [if_pos h]
      exact (ih seen).cons a
    · rw [if_neg h]
      exact (ih (a :: seen)).cons₂ a

theorem mem_dedupFirstAux [DecidableEq α] :
    ∀ {l seen : List α} {a : α}, a ∈ l → a ∉ seen → a ∈ dedupFirstAux seen l := by
  intro l
  induction l with
  | nil => intro seen a h; simp at h
  | cons b t ih =>
    intro seen a h hns
    unfold dedupFirstAux
    rcases List.mem_cons.mp h with rfl | hat
    · rw [if_neg hns]
      exact List.mem_cons_self a _
    · by_cases hb : b ∈ seen
      · rw [if_pos hb]
        exact ih hat hns
      · rw [if_neg hb]
        by_cases hab : a = b
        · rw [hab]
          exact List.mem_cons_self b _
        · exact List.mem_cons_of_mem b (ih hat (by simp [hab, hns]))

theorem dedupFirstAux_nodup_notin [DecidableEq α] :
    ∀ (l seen : List α), (dedupFirstAux seen l).Nodup ∧
      ∀ a ∈ dedupFirstAux seen l, a ∉ seen := by
  intro l
  induction l with
  | nil => intro seen; simp [dedupFirstAux]
  | cons b t ih =>
    intro seen
    unfold dedupFirstAux
    by_cases hb : b ∈ seen
    · rw [if_pos hb]
      exact ih seen
    · rw [if_neg hb]
      obtain ⟨hnd, hni⟩ := ih (b :: seen)
      refine ⟨List.nodup_cons.mpr ⟨fun hmem => ?_, hnd⟩, ?_⟩
      · exact hni b hmem (List.mem_cons_self b seen)
      · intro a ha
        rcases List.mem_cons.mp ha with rfl | ha'
        · exact hb
        · exact fun hs => hni a ha' (List.mem_cons_of_mem b hs)

theorem dedupFirst_nodup [DecidableEq α] (l : List α) : (dedupFirst l).Nodup :=
  (dedupFirstAux_nodup_notin l []).1

theorem dedupFirst_sublist [DecidableEq α] (l : List α) :
    List.Sublist (dedupFirst l) l :=
  dedupFirstAux_sublist l []

theorem mem_dedupFirst [DecidableEq α] {l : List α} {a : α} (h : a ∈ l) :
    a ∈ dedupFirst l :=
  mem_dedupFirstAux h (List.not_mem_nil a)

/-- Cell normalization does not change nullness. -/
theorem allNullRow_map_normCell (r : List Cell) :
    allNullRow (r.map normCell) = allNullRow r := by
  induction r with
  | nil => rfl
  | cons c t ih =>
    unfold allNullRow at ih ⊢
    simp only [List.map_cons, List.all_cons, ih]
    cases c <;> rfl

/-- C4 counterexample: the claim asserts the cleaned table never contains two
equal rows, but normalization runs after deduplication, so two rows that
differ only in removable whitespace (`"a "` vs `"a"`) survive
`drop_duplicates` and then normalize to identical rows. -/
theorem C4_counterexample :
    ¬ (clean_dataframe ⟨[("t", Dtype.string)],
        [[Cell.str "a "], [Cell.str "a"]]⟩).rows.Nodup := by
  decide

/-- C4 (amended): cleaning keeps the column set, leaves no fully-null row,
and removes rows that are exact duplicates of an earlier row *as ingested*
(first occurrence kept, order preserved), after which every string cell is
normalized and non-string cells are unchanged; deduplication happens before
normalization, so normalization may reintroduce equal rows. -/
theorem C4_clean_dataframe (df : DataFrame) :
    (clean_dataframe df).header = df.header ∧
    (∀ r ∈ (clean_dataframe df).rows, allNullRow r = false) ∧
    (clean_dataframe df).rows = (dedupStage df).map (List.map normCell) ∧
    (dedupStage df).Nodup ∧
    List.Sublist (dedupStage df) (df.rows.filter fun r => !allNullRow r) ∧
    (∀ r ∈ df.rows, allNullRow r = false → r ∈ dedupStage df) ∧
    (∀ q, normCell (.num q) = .num q) ∧ normCell .null = .null ∧
    (∀ s, normCell (.str s) = .str (clean_text s)) := by
  refine ⟨rfl, ?_, rfl, dedupFirst_nodup _, dedupFirst_sublist _, ?_, fun _ => rfl, rfl,
    fun _ => rfl⟩
  · intro r hr
    obtain ⟨r₀, hr₀, rfl⟩ := List.mem_map.mp hr
    have h1 : r₀ ∈ df.rows.filter fun r => !allNullRow r :=
      (dedupFirst_sublist _).subset hr₀
    have h2 := List.of_mem_filter h1
    rw [allNullRow_map_normCell]
    simpa using h2
  · intro r hr hnull
    exact mem_dedupFirst (List.mem_filter.mpr ⟨hr, by simp [hnull]⟩)

/-! ### Sentiment-label derivation (C10) -/

theorem toNat_ofNat_of_lt {n : ℕ} (h : n < 55296) : (Char.ofNat n).toNat = n := by
  unfold Char.ofNat
  rw [dif_pos (Or.inl h : Nat.isValidChar n)]
  simp [Char.ofNatAux, Char.toNat, UInt32.toNat, UInt32.ofNat', Fin.ofNat']

theorem upChar_idem (c : Char) : upChar (upChar c) = upChar c := by
  unfold upChar
  by_cases h : 97 ≤ c.toNat ∧ c.toNat ≤ 122
  · rw [if_pos h]
    have ht : (Char.ofNat (c.toNat - 32)).toNat = c.toNat - 32 :=
      toNat_ofNat_of_lt (by omega)
    rw [if_neg (by omega : ¬(97 ≤ (Char.ofNat (c.toNat - 32)).toNat ∧
      (Char.ofNat (c.toNat - 32)).toNat ≤ 122))]
  · rw [if_neg h, if_neg h]

theorem pyUpper_idem (s : String) : pyUpper (pyUpper s) = pyUpper s := by
  unfold pyUpper
  simp only [List.map_map]
  congr 1
  apply List.map_congr_left
  intro c _
  exact upChar_idem c

/-- Two scorers that agree after `_sentiment_label` either both fail with the
same message or both succeed with label-equivalent score lists. -/
theorem except_ok_bind {ε α β : Type} (a : α) (f : α → Except ε β) :
    (Except.ok a >>= f) = f a := rfl

theorem bind_eq_except_bind {ε α β : Type} (b : Except ε α) (k : α → Except ε β) :
    b >>= k = Except.bind b k := rfl

theorem except_error_bind {ε α β : Type} (e : ε) (f : α → Except ε β) :
    ((Except.error e : Except ε α) >>= f) = Except.error e := rfl

theorem except_pure_eq {ε α : Type} (a : α) : (pure a : Except ε α) = Except.ok a := rfl

theorem scorer_labelView_cases {m₁ m₂ : Scorer}
    (h : ∀ ts, (m₁ ts).map (List.map _sentiment_label) =
      (m₂ ts).map (List.map _sentiment_label)) (ts : List String) :
    (∃ e, m₁ ts = .error e ∧ m₂ ts = .error e) ∨
    (∃ s₁ s₂, m₁ ts = .ok s₁ ∧ m₂ ts = .ok s₂ ∧
      s₁.map _sentiment_label = s₂.map _sentiment_label) := by
  have h' := h ts
  cases h₁ : m₁ ts with
  | error e =>
    cases h₂ : m₂ ts with
    | error e' =>
      left
      rw [h₁, h₂] at h'
      simp only [Except.map] at h'
      cases h'
      exact ⟨e, rfl, rfl⟩
    | ok s =>
      rw [h₁, h₂] at h'
      simp [Except.map] at h'
  | ok s₁ =>
    cases h₂ : m₂ ts with
    | error e =>
      rw [h₁, h₂] at h'
      simp [Except.map] at h'
    | ok s₂ =>
      right
      rw [h₁, h₂] at h'
      simp only [Except.map, Except.ok.injEq] at h'
      exact ⟨s₁, s₂, rfl, rfl, h'⟩

theorem zip_filterMap_label {texts : List String} :
    ∀ {s₁ s₂ : List Score},
      s₁.map _sentiment_label = s₂.map _sentiment_label →
      ((texts.zip s₁).filterMap fun p =>
        if _sentiment_label p.2 = "NEGATIVE" then some p.1 else none) =
      ((texts.zip s₂).filterMap fun p =>
        if _sentiment_label p.2 = "NEGATIVE" then some p.1 else none) := by
  induction texts with
  | nil => intro s₁ s₂ _; rfl
  | cons t ts ih =>
    intro s₁ s₂ h
    cases s₁ with
    | nil =>
      cases s₂ with
      | nil => rfl
      | cons b bs => simp at h
    | cons a as =>
      cases s₂ with
      | nil => simp at h
      | cons b bs =>
        simp only [List.map_cons, List.cons.injEq] at h
        simp only [List.zip_cons_cons, List.filterMap_cons, h.1, ih h.2]

theorem binarize_eq_map (s : List Score) :
    binarize s = (s.map _sentiment_label).map fun l => if l = "POSITIVE" then 1 else 0 := by
  unfold binarize
  rw [List.map_map]
  rfl

/-- C10: every stage reads a sentiment score only through
`_sentiment_label`, which uppercases the string stored under the `"label"`
key and substitutes `"NEUTRAL"` when the key is absent.  Hence a missing
label counts as NEUTRAL, the upper-cased form of a label is scored
identically to the label itself (case-insensitivity of the
POSITIVE/NEGATIVE tests), and any two scorers agreeing up to
`_sentiment_label` produce identical eda, descriptive, diagnostic and
predictive results. -/
theorem C10_sentiment_label :
    (∀ sc : Score, sc.label = none → _sentiment_label sc = "NEUTRAL") ∧
    (∀ l : String, _sentiment_label ⟨some (pyUpper l)⟩ = _sentiment_label ⟨some l⟩) ∧
    (∀ (df : DataFrame) (m₁ m₂ : Scorer),
      (∀ ts, (m₁ ts).map (List.map _sentiment_label) =
        (m₂ ts).map (List.map _sentiment_label)) →
      perform_eda df m₁ = perform_eda df m₂ ∧
      descriptive_analytics df m₁ = descriptive_analytics df m₂ ∧
      (∀ rsqrt, diagnostic_analytics df m₁ rsqrt = diagnostic_analytics df m₂ rsqrt) ∧
      (∀ env, predictive_analytics df m₁ env = predictive_analytics df m₂ env)) := by
  refine ⟨?_, ?_, ?_⟩
  · intro sc h
    unfold _sentiment_label
    rw [h]
    rfl
  · intro l
    unfold _sentiment_label
    simp only [Option.getD_some]
    exact pyUpper_idem l
  · intro df m₁ m₂ h
    refine ⟨?_, ?_, ?_, ?_⟩
    · unfold perform_eda
      cases hcol : findTextColIdx df with
      | none => rfl
      | some i =>
        by_cases hemp : (textsOfCol df i).isEmpty
        · simp [hemp]
        · rcases scorer_labelView_cases h ((textsOfCol df i).take 200) with
            ⟨e, h₁, h₂⟩ | ⟨s₁, s₂, h₁, h₂, hl⟩
          · simp [hemp, h₁, h₂, Except.bind]
          · simp [hemp, h₁, h₂, Except.bind, counterList, hl]
    · unfold descriptive_analytics
      cases hcol : findTextColIdx df with
      | none => rfl
      | some i =>
        rcases scorer_labelView_cases h ((textsOfCol df i).take 200) with
          ⟨e, h₁, h₂⟩ | ⟨s₁, s₂, h₁, h₂, hl⟩
        · simp [h₁, h₂, Except.bind]
        · have hlen12 : s₁.length = s₂.length := by
            have := congrArg List.length hl
            simpa using this
          have hnil : s₁ = [] ↔ s₂ = [] := by
            rw [← List.length_eq_zero, ← List.length_eq_zero, hlen12]
          simp [h₁, h₂, except_ok_bind, hl, hlen12, hnil]
    · intro rsqrt
      unfold diagnostic_analytics
      cases hcol : findTextColIdx df with
      | none => rfl
      | some i =>
        rcases scorer_labelView_cases h ((textsOfCol df i).take 200) with
          ⟨e, h₁, h₂⟩ | ⟨s₁, s₂, h₁, h₂, hl⟩
        · simp [h₁, h₂, Except.bind]
        · simp [h₁, h₂, Except.bind, zip_filterMap_label hl]
    · intro env
      unfold predictive_analytics
      cases hcol : findTextColIdx df with
      | none => rfl
      | some i =>
        by_cases hlen : (textsOfCol df i).length < 10
        · simp [hlen]
        · simp only [if_neg hlen]
          unfold predictive_body
          rcases scorer_labelView_cases h ((textsOfCol df i).take 500) with
            ⟨e, h₁, h₂⟩ | ⟨s₁, s₂, h₁, h₂, hl⟩
          · simp [h₁, h₂, Except.bind]
          · have hbin : binarize s₁ = binarize s₂ := by
              rw [binarize_eq_map, binarize_eq_map, hl]
            simp only [h₁, h₂]
            exact congrArg (fun labs : List ℕ => predictive_catch (
              if (dedupFirst labs).length < 2 then
                pure (PredResult.skipped "All texts have the same sentiment; model training requires mixed sentiment data.")
              else do
                let features ← env.vectorize (List.take labs.length (textsOfCol df i))
                let parts ← env.tts features labs
                let preds ← env.fitPredict parts.1 parts.2.2.1 parts.2.1
                pure (PredResult.trained ⟨pyRound 3 (accuracy_score parts.2.2.2 preds),
                    pyRound 3 (precision_score parts.2.2.2 preds),
                    pyRound 3 (recall_score parts.2.2.2 preds),
                    pyRound 3 (f1_score parts.2.2.2 preds)⟩))) hbin

/-! ### The predictive stage (C2, C3) -/

theorem two_le_length_of_mem {α : Type} {l : List α} {a b : α}
    (ha : a ∈ l) (hb : b ∈ l) (hab : a ≠ b) : 2 ≤ l.length := by
  cases l with
  | nil => simp at ha
  | cons x t =>
    cases t with
    | nil =>
      simp at ha hb
      rw [ha, hb] at hab
      exact absurd rfl hab
    | cons y u => simp [List.length]

theorem dedupFirst_lt_two_of_allEq {l : List ℕ}
    (h : ∀ x ∈ l, ∀ y ∈ l, x = y) : (dedupFirst l).length < 2 := by
  by_contra hc
  push_neg at hc
  cases hd : dedupFirst l with
  | nil => rw [hd] at hc; simp at hc
  | cons a t =>
    cases t with
    | nil => rw [hd] at hc; simp at hc
    | cons b u =>
      have hnd := dedupFirst_nodup l
      rw [hd] at hnd
      have hab : a ≠ b := by
        intro hcon
        exact (List.nodup_cons.mp hnd).1 (hcon ▸ List.mem_cons_self b u)
      have hsub := (dedupFirst_sublist l).subset
      rw [hd] at hsub
      exact hab (h a (hsub (List.mem_cons_self a _)) b
        (hsub (List.mem_cons_of_mem a (List.mem_cons_self b u))))

/-- Unfolding of the predictive body once the scorer call has succeeded. -/
theorem predictive_body_eq (texts : List String) (model : Scorer) (env : TrainEnv)
    {scores : List Score} (hm : model (texts.take 500) = .ok scores) :
    predictive_body texts model env =
      (if (dedupFirst (binarize scores)).length < 2 then
        Except.ok (.skipped "All texts have the same sentiment; model training requires mixed sentiment data.")
      else do
        let features ← env.vectorize (texts.take (binarize scores).length)
        let parts ← env.tts features (binarize scores)
        let preds ← env.fitPredict parts.1 parts.2.2.1 parts.2.1
        pure (.trained ⟨pyRound 3 (accuracy_score parts.2.2.2 preds),
                        pyRound 3 (precision_score parts.2.2.2 preds),
                        pyRound 3 (recall_score parts.2.2.2 preds),
                        pyRound 3 (f1_score parts.2.2.2 preds)⟩)) := by
  unfold predictive_body
  rw [hm]
  rfl

/-- C2: the predictive stage never propagates an exception: its result is
always `trained` with metrics or `skipped` with a reason string, and any
error raised inside the `try` body (scoring, vectorization, splitting,
training or evaluation) is caught and turned into
`skipped ("Model training failed: " ++ message)`. -/
theorem C2_predictive_never_raises :
    (∀ (df : DataFrame) (model : Scorer) (env : TrainEnv),
      (∃ m, predictive_analytics df model env = PredResult.trained m) ∨
      (∃ r, predictive_analytics df model env = PredResult.skipped r)) ∧
    (∀ (texts : List String) (model : Scorer) (env : TrainEnv) (e : String),
      predictive_body texts model env = Except.error e →
      predictive_catch (predictive_body texts model env) =
        PredResult.skipped ("Model training failed: " ++ e)) := by
  constructor
  · intro df model env
    cases h : predictive_analytics df model env with
    | trained m => exact Or.inl ⟨m, rfl⟩
    | skipped r => exact Or.inr ⟨r, rfl⟩
  · intro texts model env e h
    rw [h]
    rfl

/-- C2 witness: a failing vectorizer is swallowed into a skip with the
failure message. -/
theorem C2_witness :
    predictive_body (textsOfCol sampleDfTen 0) sampleMixScorer sampleFailEnv =
      Except.error "boom" ∧
    predictive_catch (predictive_body (textsOfCol sampleDfTen 0) sampleMixScorer sampleFailEnv) =
      PredResult.skipped ("Model training failed: " ++ "boom") ∧
    ((∃ m, predictive_analytics sampleDfTen sampleMixScorer sampleFailEnv = PredResult.trained m) ∨
     (∃ r, predictive_analytics sampleDfTen sampleMixScorer sampleFailEnv = PredResult.skipped r)) := by
  have hbody : predictive_body (textsOfCol sampleDfTen 0) sampleMixScorer sampleFailEnv =
      Except.error "boom" := rfl
  exact ⟨hbody,
    C2_predictive_never_raises.2 (textsOfCol sampleDfTen 0) sampleMixScorer sampleFailEnv "boom" hbody,
    C2_predictive_never_raises.1 sampleDfTen sampleMixScorer sampleFailEnv⟩

/-- C3: the guard clauses of the predictive stage, in evaluation order: no
text column skips with the no-text reason; fewer than 10 text rows skips
with the insufficient-records reason; a successfully scored table whose
POSITIVE-vs-other binarized labels are all identical skips with the
same-sentiment reason; and with at least 10 rows, both classes present and
the training capabilities succeeding, the stage reports `trained` with
accuracy, precision, recall and F1 all within `[0, 1]`. -/
theorem C3_predictive_guards :
    (∀ (df : DataFrame) (model : Scorer) (env : TrainEnv),
      findTextColIdx df = none →
      predictive_analytics df model env =
        PredResult.skipped "No text column available for model training.") ∧
    (∀ (df : DataFrame) (model : Scorer) (env : TrainEnv) (i : ℕ),
      findTextColIdx df = some i →
      (textsOfCol df i).length < 10 →
      predictive_analytics df model env =
        PredResult.skipped "Not enough text records for training.") ∧
    (∀ (df : DataFrame) (model : Scorer) (env : TrainEnv) (i : ℕ) (scores : List Score),
      findTextColIdx df = some i →
      ¬(textsOfCol df i).length < 10 →
      model ((textsOfCol df i).take 500) = Except.ok scores →
      (∀ x ∈ binarize scores, ∀ y ∈ binarize scores, x = y) →
      predictive_analytics df model env =
        PredResult.skipped "All texts have the same sentiment; model training requires mixed sentiment data.") ∧
    (∀ (df : DataFrame) (model : Scorer) (env : TrainEnv) (i : ℕ) (scores : List Score)
        (feats xtr xte : List (List ℚ)) (ytr yte preds : List ℕ),
      findTextColIdx df = some i →
      ¬(textsOfCol df i).length < 10 →
      model ((textsOfCol df i).take 500) = Except.ok scores →
      0 ∈ binarize scores → 1 ∈ binarize scores →
      env.vectorize ((textsOfCol df i).take (binarize scores).length) = Except.ok feats →
      env.tts feats (binarize scores) = Except.ok (xtr, xte, ytr, yte) →
      env.fitPredict xtr ytr xte = Except.ok preds →
      ∃ m, predictive_analytics df model env = PredResult.trained m ∧
        m = ⟨pyRound 3 (accuracy_score yte preds), pyRound 3 (precision_score yte preds),
             pyRound 3 (recall_score yte preds), pyRound 3 (f1_score yte preds)⟩ ∧
        0 ≤ m.accuracy ∧ m.accuracy ≤ 1 ∧ 0 ≤ m.precisionV ∧ m.precisionV ≤ 1 ∧
        0 ≤ m.recallV ∧ m.recallV ≤ 1 ∧ 0 ≤ m.f1V ∧ m.f1V ≤ 1) := by
  refine ⟨?_, ?_, ?_, ?_⟩
  · intro df model env h
    simp only [predictive_analytics, h]
  · intro df model env i h hlen
    simp only [predictive_analytics, h, if_pos hlen]
  · intro df model env i scores h hlen hm hall
    simp only [predictive_analytics, h, if_neg hlen]
    rw [predictive_body_eq _ _ _ hm, if_pos (dedupFirst_lt_two_of_allEq hall)]
    rfl
  · intro df model env i scores feats xtr xte ytr yte preds h hlen hm h0 h1 hv ht hf
    have hmix : ¬(dedupFirst (binarize scores)).length < 2 := by
      have h0' : (0 : ℕ) ∈ dedupFirst (binarize scores) := mem_dedupFirst h0
      have h1' : (1 : ℕ) ∈ dedupFirst (binarize scores) := mem_dedupFirst h1
      have := two_le_length_of_mem h0' h1' (by omega)
      omega
    refine ⟨⟨pyRound 3 (accuracy_score yte preds), pyRound 3 (precision_score yte preds),
             pyRound 3 (recall_score yte preds), pyRound 3 (f1_score yte preds)⟩, ?_, rfl,
      pyRound_nonneg 3 (accuracy_score_mem_unit yte preds).1,
      pyRound_le_one 3 (accuracy_score_mem_unit yte preds).2,
      pyRound_nonneg 3 (precision_score_mem_unit yte preds).1,
      pyRound_le_one 3 (precision_score_mem_unit yte preds).2,
      pyRound_nonneg 3 (recall_score_mem_unit yte preds).1,
      pyRound_le_one 3 (recall_score_mem_unit yte preds).2,
      pyRound_nonneg 3 (f1_score_mem_unit yte preds).1,
      pyRound_le_one 3 (f1_score_mem_unit yte preds).2⟩
    simp only [predictive_analytics, h, if_neg hlen]
    rw [predictive_body_eq _ _ _ hm, if_neg hmix]
    simp only [hv, ht, hf, except_ok_bind]
    rfl

/-- C3 witness: the four guards exercised on concrete tables. -/
theorem C3_witness :
    predictive_analytics sampleDfNoText samplePosScorer sampleEnv =
      PredResult.skipped "No text column available for model training." ∧
    predictive_analytics sampleDfOne samplePosScorer sampleEnv =
      PredResult.skipped "Not enough text records for training." ∧
    predictive_analytics sampleDfTen samplePosScorer sampleEnv =
      PredResult.skipped "All texts have the same sentiment; model training requires mixed sentiment data." ∧
    ∃ m, predictive_analytics sampleDfTen sampleMixScorer sampleEnv = PredResult.trained m ∧
      m = ⟨pyRound 3 (accuracy_score [0, 1] [0, 1]), pyRound 3 (precision_score [0, 1] [0, 1]),
           pyRound 3 (recall_score [0, 1] [0, 1]), pyRound 3 (f1_score [0, 1] [0, 1])⟩ ∧
      0 ≤ m.accuracy ∧ m.accuracy ≤ 1 ∧ 0 ≤ m.precisionV ∧ m.precisionV ≤ 1 ∧
      0 ≤ m.recallV ∧ m.recallV ≤ 1 ∧ 0 ≤ m.f1V ∧ m.f1V ≤ 1 := by
  refine ⟨C3_predictive_guards.1 sampleDfNoText samplePosScorer sampleEnv (by decide),
    C3_predictive_guards.2.1 sampleDfOne samplePosScorer sampleEnv 0 (by decide) (by decide),
    C3_predictive_guards.2.2.1 sampleDfTen samplePosScorer sampleEnv 0
      ((textsOfCol sampleDfTen 0).take 500 |>.map fun _ => ⟨some "POSITIVE"⟩)
      (by decide) (by decide) rfl (by decide), ?_⟩
  exact C3_predictive_guards.2.2.2 sampleDfTen sampleMixScorer sampleEnv 0
    [⟨some "NEGATIVE"⟩, ⟨some "POSITIVE"⟩, ⟨some "NEGATIVE"⟩, ⟨some "POSITIVE"⟩,
     ⟨some "NEGATIVE"⟩, ⟨some "POSITIVE"⟩, ⟨some "NEGATIVE"⟩, ⟨some "POSITIVE"⟩,
     ⟨some "NEGATIVE"⟩, ⟨some "POSITIVE"⟩]
    [] [] [] [0, 1, 0, 1, 0, 1, 0, 1] [0, 1] [0, 1]
    (by decide) (by decide) rfl (by decide) (by decide) rfl rfl rfl

/-- C10 witness: a missing label is NEUTRAL, lowercase labels are scored
like their uppercase forms, and the descriptive stage cannot distinguish a
lowercase-labelling scorer from an uppercase one. -/
theorem C10_witness :
    _sentiment_label ⟨none⟩ = "NEUTRAL" ∧
    _sentiment_label ⟨some (pyUpper "positive")⟩ = _sentiment_label ⟨some "positive"⟩ ∧
    descriptive_analytics sampleDfTwo sampleLowScorer =
      descriptive_analytics sampleDfTwo samplePosScorer := by
  have hview : ∀ ts, (sampleLowScorer ts).map (List.map _sentiment_label) =
      (samplePosScorer ts).map (List.map _sentiment_label) := by
    intro ts
    simp only [sampleLowScorer, samplePosScorer, Except.map, List.map_map]
    have hconst : ∀ x : String,
        (_sentiment_label ∘ fun _ => (⟨some "positive"⟩ : Score)) x =
        (_sentiment_label ∘ fun _ => (⟨some "POSITIVE"⟩ : Score)) x := by
      intro x
      show _sentiment_label ⟨some "positive"⟩ = _sentiment_label ⟨some "POSITIVE"⟩
      decide
    exact congrArg Except.ok (List.map_congr_left fun a _ => hconst a)
  exact ⟨C10_sentiment_label.1 ⟨none⟩ rfl, C10_sentiment_label.2.1 "positive",
    (C10_sentiment_label.2.2 sampleDfTwo sampleLowScorer samplePosScorer hview).2.1⟩

/-! ### Descriptive percentages (C5) -/

theorem round2_sum_le {cp cn t : ℕ} (hc : cp + cn ≤ t) (ht : 0 < t) :
    pyRound 2 (100 * (cp : ℚ) / t) + pyRound 2 (100 * (cn : ℚ) / t) ≤ 100 := by
  have htq : (0 : ℚ) < t := by exact_mod_cast ht
  have hcq : (cp : ℚ) + cn ≤ t := by exact_mod_cast hc
  set a : ℚ := 100 * (cp : ℚ) / t * 10 ^ 2 with ha
  set b : ℚ := 100 * (cn : ℚ) / t * 10 ^ 2 with hb
  have hab : a + b ≤ 10000 := by
    rw [ha, hb, div_mul_eq_mul_div, div_mul_eq_mul_div, div_add_div_same,
      div_le_iff₀ htq]
    nlinarith
  have hsum : rhe a + rhe b ≤ 10000 := by
    have h1 := rhe_le a
    have h2 := rhe_le b
    have hZ : rhe a + rhe b ≤ 10001 := by
      have : ((rhe a + rhe b : ℤ) : ℚ) ≤ 10001 := by push_cast; linarith
      exact_mod_cast this
    by_contra hcon
    push_neg at hcon
    have heq : rhe a + rhe b = 10001 := le_antisymm hZ hcon
    have hcast : ((rhe a : ℚ)) + rhe b = 10001 := by exact_mod_cast heq
    have hfa : (rhe a : ℚ) = a + 1 / 2 := by linarith
    have hfb : (rhe b : ℚ) = b + 1 / 2 := by linarith
    obtain ⟨hfra, hoa⟩ := rhe_half_eq hfa
    obtain ⟨hfrb, hob⟩ := rhe_half_eq hfb
    have hab10000 : a + b = 10000 := by linarith
    have hfloors : ((⌊a⌋ + ⌊b⌋ : ℤ) : ℚ) = 9999 := by push_cast; linarith
    have hfloorsZ : ⌊a⌋ + ⌊b⌋ = 9999 := by exact_mod_cast hfloors
    omega
  unfold pyRound
  rw [← ha, ← hb]
  have hcast : ((rhe a : ℚ)) + rhe b ≤ 10000 := by exact_mod_cast hsum
  have h100 : ((10 : ℚ) ^ 2) = 100 := by norm_num
  rw [h100]
  linarith

theorem round2_sum_eq {cp cn t : ℕ} (hc : cp + cn ≤ t) (ht : 0 < t) (ht2 : t ≤ 200)
    (heq : pyRound 2 (100 * (cp : ℚ) / t) + pyRound 2 (100 * (cn : ℚ) / t) = 100) :
    cp + cn = t := by
  have htq : (0 : ℚ) < t := by exact_mod_cast ht
  set a : ℚ := 100 * (cp : ℚ) / t * 10 ^ 2 with ha
  set b : ℚ := 100 * (cn : ℚ) / t * 10 ^ 2 with hb
  have hsum : (rhe a : ℚ) + rhe b = 10000 := by
    unfold pyRound at heq
    rw [← ha, ← hb] at heq
    have h100 : ((10 : ℚ) ^ 2) = 100 := by norm_num
    rw [h100] at heq
    linarith
  have h1 := rhe_le a
  have h2 := rhe_le b
  have habge : 9999 ≤ a + b := by linarith
  by_contra hcon
  have hlt : cp + cn ≤ t - 1 := by omega
  have hltq : (cp : ℚ) + cn ≤ (t : ℚ) - 1 := by
    have : ((cp + cn : ℕ) : ℚ) ≤ ((t - 1 : ℕ) : ℚ) := by exact_mod_cast hlt
    push_cast at this
    rw [Nat.cast_sub ht] at this
    · push_cast at this
      linarith
  have hab : a + b ≤ 10000 - 10000 / t := by
    rw [ha, hb, div_mul_eq_mul_div, div_mul_eq_mul_div, div_add_div_same]
    rw [div_le_iff₀ htq, sub_mul, div_mul_cancel₀ _ (ne_of_gt htq)]
    nlinarith
  have hdiv : (10000 : ℚ) / t ≥ 50 := by
    rw [ge_iff_le, le_div_iff₀ htq]
    have : (t : ℚ) ≤ 200 := by exact_mod_cast ht2
    linarith
  linarith

theorem count_PN_le_length (l : List String) :
    l.count "POSITIVE" + l.count "NEGATIVE" ≤ l.length := by
  induction l with
  | nil => simp
  | cons a t ih =>
    simp only [List.count_cons, List.length_cons]
    by_cases h1 : a = "POSITIVE" <;> by_cases h2 : a = "NEGATIVE" <;>
      simp [h1, h2] at * <;> omega

theorem all_PN_of_count_eq {l : List String}
    (h : l.count "POSITIVE" + l.count "NEGATIVE" = l.length) :
    ∀ x ∈ l, x = "POSITIVE" ∨ x = "NEGATIVE" := by
  induction l with
  | nil => intro x hx; simp at hx
  | cons a t ih =>
    intro x hx
    have hle := count_PN_le_length t
    simp only [List.count_cons, List.length_cons] at h
    by_cases h1 : a = "POSITIVE" <;> by_cases h2 : a = "NEGATIVE" <;>
      rcases List.mem_cons.mp hx with rfl | hxt <;>
      simp [h1, h2] at h ⊢ <;>
      first
      | exact ih (by omega) x hxt
      | omega

/-- C5: the descriptive stage's percentages are each the label's count among
the scored labels divided by the scored total, as a percentage rounded to 2
decimals (both 0.0 when there is no text column); their sum never exceeds
100, with equality only when every scored label is POSITIVE or NEGATIVE.
The scorer is assumed to honour its contract of returning one score per
input. -/
theorem C5_descriptive_percentages :
    ∀ (df : DataFrame) (model : Scorer) (res : DescResult),
      (∀ ts ss, model ts = Except.ok ss → ss.length = ts.length) →
      descriptive_analytics df model = Except.ok res →
      res.positive_percentage + res.negative_percentage ≤ 100 ∧
      (res.positive_percentage + res.negative_percentage = 100 →
        ∃ ls, descLabels df model = Except.ok ls ∧
          ∀ l ∈ ls, l = "POSITIVE" ∨ l = "NEGATIVE") ∧
      (findTextColIdx df = none →
        res.positive_percentage = 0 ∧ res.negative_percentage = 0) ∧
      (∀ ls, descLabels df model = Except.ok ls →
        res.positive_percentage = pyRound 2 (100 * (ls.count "POSITIVE" : ℚ) /
          (if ls.length = 0 then 1 else (ls.length : ℚ))) ∧
        res.negative_percentage = pyRound 2 (100 * (ls.count "NEGATIVE" : ℚ) /
          (if ls.length = 0 then 1 else (ls.length : ℚ)))) := by
  intro df model res hlen hok
  have hzero : pyRound 2 (0 : ℚ) = 0 := by
    have h := pyRound_intCast 2 0
    simpa using h
  cases hcol : findTextColIdx df with
  | none =>
    simp only [descriptive_analytics, hcol] at hok
    have hres : res = ⟨0, 0⟩ := by
      cases hok
      rfl
    subst hres
    refine ⟨by norm_num, by norm_num, fun _ => ⟨rfl, rfl⟩, ?_⟩
    intro ls hls
    simp only [descLabels, hcol] at hls
    cases hls
    simp [hzero]
  | some i =>
    cases hm : model ((textsOfCol df i).take 200) with
    | error e =>
      simp only [descriptive_analytics, hcol, hm] at hok
      cases hok
    | ok ss =>
      simp only [descriptive_analytics, hcol, hm, except_ok_bind, except_pure_eq,
        Except.ok.injEq] at hok
      subst hok
      dsimp only
      have hlabelslen : (ss.map _sentiment_label).length ≤ 200 := by
        rw [List.length_map]
        rw [hlen _ _ hm]
        rw [List.length_take]
        exact min_le_left _ _
      have hdl : descLabels df model = Except.ok (ss.map _sentiment_label) := by
        simp only [descLabels, hcol, hm, except_ok_bind, except_pure_eq]
      set ls : List String := ss.map _sentiment_label with hlsdef
      by_cases h0 : ls.length = 0
      · have hnil : ls = [] := List.length_eq_zero.mp h0
        rw [hnil] at hdl
        simp only [hnil, List.count_nil, List.length_nil, Nat.cast_zero, mul_zero,
          zero_div, if_pos, hzero]
        refine ⟨by norm_num, ?_, ?_, ?_⟩
        · intro h100
          norm_num at h100
        · intro hno
          exact Option.noConfusion hno
        · intro ls' hls'
          rw [hdl] at hls'
          cases hls'
          simp [hzero]
      · have hpos : 0 < ls.length := Nat.pos_of_ne_zero h0
        rw [if_neg h0]
        have hc := count_PN_le_length ls
        refine ⟨round2_sum_le hc hpos, ?_, ?_, ?_⟩
        · intro heq
          refine ⟨ls, hdl, all_PN_of_count_eq ?_⟩
          exact round2_sum_eq hc hpos hlabelslen heq
        · intro hnone
          exact Option.noConfusion hnone
        · intro ls' hls'
          rw [hdl] at hls'
          cases hls'
          rw [if_neg h0]
          exact ⟨rfl, rfl⟩

/-- C5 witness: a concrete two-row all-positive table. -/
theorem C5_witness :
    ∃ res : DescResult,
      descriptive_analytics sampleDfTwo samplePosScorer = Except.ok res ∧
      res.positive_percentage + res.negative_percentage ≤ 100 := by
  have hlen : ∀ ts ss, samplePosScorer ts = Except.ok ss → ss.length = ts.length := by
    intro ts ss h
    simp only [samplePosScorer, Except.ok.injEq] at h
    rw [← h, List.length_map]
  have hex : ∃ res, descriptive_analytics sampleDfTwo samplePosScorer = Except.ok res := by
    simp only [descriptive_analytics,
      show findTextColIdx sampleDfTwo = some 0 from rfl,
      show samplePosScorer ((textsOfCol sampleDfTwo 0).take 200) =
        Except.ok [⟨some "POSITIVE"⟩, ⟨some "POSITIVE"⟩] from rfl,
      except_ok_bind, except_pure_eq]
    exact ⟨_, rfl⟩
  obtain ⟨res, hok⟩ := hex
  exact ⟨res, hok,
    (C5_descriptive_percentages sampleDfTwo samplePosScorer res hlen hok).1⟩

/-! ### Prescriptive thresholds (C6) -/

/-- C6 counterexample: at `positive = 30`, `negative = 45` the first
recommendation is the High-priority customer-feedback loop even though the
negative percentage does not exceed 50 — the prescriptive narrative at the
same point is the mixed-sentiment one, so the recommendation is not produced
"exactly when" the negative percentage exceeds 50 as the claim states. -/
theorem C6_counterexample :
    (_create_recommendations ⟨30, 45⟩ ⟨[], []⟩).head? = some
      (Recommendation.mk "Implement Customer Feedback Loop"
        "Address negative sentiment drivers through systematic customer engagement and issue resolution protocols."
        "High") ∧
    ¬(50 : ℚ) < 45 ∧
    narrativePrescriptive ⟨30, 45⟩ =
      "Balanced optimization approach recommended. Mixed sentiment patterns indicate opportunities for targeted improvements. Focus resources on consistency enhancement and systematic monitoring of key performance drivers to establish positive trajectory." := by
  refine ⟨?_, by norm_num, ?_⟩
  · unfold _create_recommendations
    rw [if_pos (by norm_num : (40 : ℚ) < 45)]
    rfl
  · unfold narrativePrescriptive
    rw [if_neg (by norm_num : ¬(50 : ℚ) < 45), if_neg (by norm_num : ¬(70 : ℚ) < 30)]

/-- C6 (amended): the prescriptive narrative (and the advisory string of
`prescriptive_analytics`) follows the claimed thresholds — the
address-feedback text exactly when negative exceeds 50, otherwise the
scale-messaging text exactly when positive exceeds 70, otherwise the mixed
text — but the first recommendation uses the threshold 40, not 50: the
High-priority customer-feedback-loop recommendation is produced exactly when
the negative percentage exceeds 40, and otherwise the Medium-priority
scale-positive-messaging recommendation is produced. -/
theorem C6_prescriptive_thresholds (desc : DescResult) (diag : DiagResult) :
    (narrativePrescriptive desc =
        "Strategic intervention required. High negative sentiment demands immediate action. Recommend forming cross-functional task force to address root causes and implement rapid response protocols. Monitor weekly KPIs for improvement signals."
      ↔ 50 < desc.negative_percentage) ∧
    (prescriptive_analytics desc =
        "High negative sentiment detected. Prioritize customer feedback loops and rapid remediation."
      ↔ 50 < desc.negative_percentage) ∧
    (¬50 < desc.negative_percentage →
      ((narrativePrescriptive desc =
          "Momentum preservation strategy advised. Strong positive indicators suggest current approach is effective. Scale successful initiatives while maintaining vigilance on quality metrics. Consider expanding reach to capture broader market segments."
        ↔ 70 < desc.positive_percentage) ∧
       (prescriptive_analytics desc =
          "Strong positive sentiment. Scale current messaging and reinforce top-performing channels."
        ↔ 70 < desc.positive_percentage))) ∧
    (¬50 < desc.negative_percentage → ¬70 < desc.positive_percentage →
      narrativePrescriptive desc =
        "Balanced optimization approach recommended. Mixed sentiment patterns indicate opportunities for targeted improvements. Focus resources on consistency enhancement and systematic monitoring of key performance drivers to establish positive trajectory." ∧
      prescriptive_analytics desc =
        "Sentiment is mixed. Focus on improving consistency and monitoring key drivers weekly.") ∧
    ((_create_recommendations desc diag).head? = some
        (Recommendation.mk "Implement Customer Feedback Loop"
          "Address negative sentiment drivers through systematic customer engagement and issue resolution protocols."
          "High")
      ↔ 40 < desc.negative_percentage) ∧
    ((_create_recommendations desc diag).head? = some
        (Recommendation.mk "Scale Positive Messaging"
          "Amplify successful communication strategies across additional channels to maximize reach and engagement."
          "Medium")
      ↔ ¬40 < desc.negative_percentage) := by
  refine ⟨?_, ?_, ?_, ?_, ?_, ?_⟩
  · by_cases h50 : 50 < desc.negative_percentage
    · simp [narrativePrescriptive, h50]
    · rw [narrativePrescriptive, if_neg h50]
      by_cases h70 : 70 < desc.positive_percentage
      · rw [if_pos h70]
        exact iff_of_false (by decide) h50
      · rw [if_neg h70]
        exact iff_of_false (by decide) h50
  · by_cases h50 : 50 < desc.negative_percentage
    · simp [prescriptive_analytics, h50]
    · rw [prescriptive_analytics, if_neg h50]
      by_cases h70 : 70 < desc.positive_percentage
      · rw [if_pos h70]
        exact iff_of_false (by decide) h50
      · rw [if_neg h70]
        exact iff_of_false (by decide) h50
  · intro h50
    constructor
    · rw [narrativePrescriptive, if_neg h50]
      by_cases h70 : 70 < desc.positive_percentage
      · simp [h70]
      · rw [if_neg h70]
        exact iff_of_false (by decide) h70
    · rw [prescriptive_analytics, if_neg h50]
      by_cases h70 : 70 < desc.positive_percentage
      · simp [h70]
      · rw [if_neg h70]
        exact iff_of_false (by decide) h70
  · intro h50 h70
    rw [narrativePrescriptive, if_neg h50, if_neg h70,
      prescriptive_analytics, if_neg h50, if_neg h70]
    exact ⟨rfl, rfl⟩
  · by_cases h40 : 40 < desc.negative_percentage
    · rw [_create_recommendations, if_pos h40]
      simp [h40]
    · rw [_create_recommendations, if_neg h40]
      exact iff_of_false (by simp) h40
  · by_cases h40 : 40 < desc.negative_percentage
    · rw [_create_recommendations, if_pos h40]
      exact iff_of_false (by simp) (by simp [h40])
    · rw [_create_recommendations, if_neg h40]
      simp [h40]

/-- C6 witness: the amended thresholds at the counterexample point. -/
theorem C6_witness :
    narrativePrescriptive ⟨30, 45⟩ =
      "Balanced optimization approach recommended. Mixed sentiment patterns indicate opportunities for targeted improvements. Focus resources on consistency enhancement and systematic monitoring of key performance drivers to establish positive trajectory." ∧
    (_create_recommendations ⟨30, 45⟩ ⟨[], []⟩).head? = some
      (Recommendation.mk "Implement Customer Feedback Loop"
        "Address negative sentiment drivers through systematic customer engagement and issue resolution protocols."
        "High") := by
  refine ⟨((C6_prescriptive_thresholds ⟨30, 45⟩ ⟨[], []⟩).2.2.2.1
    (by norm_num) (by norm_num)).1, ?_⟩
  exact (C6_prescriptive_thresholds ⟨30, 45⟩ ⟨[], []⟩).2.2.2.2.1.mpr (by norm_num)

/-! ### The eda word-frequency list (C9) -/

theorem pairwise_imp_mem {α : Type} {R S : α → α → Prop} :
    ∀ {l : List α}, (∀ a ∈ l, ∀ b ∈ l, R a b → S a b) → l.Pairwise R → l.Pairwise S := by
  intro l h hp
  induction hp with
  | nil => exact List.Pairwise.nil
  | cons hr hp ih =>
    rename_i a t
    refine List.Pairwise.cons ?_ (ih ?_)
    · intro b hb
      exact h a (List.mem_cons_self a t) b (List.mem_cons_of_mem a hb) (hr b hb)
    · intro x hx y hy
      exact h x (List.mem_cons_of_mem a hx) y (List.mem_cons_of_mem a hy)

theorem firstIdx_cons_self (w : String) (t : List String) : firstIdx w (w :: t) = 0 := by
  simp [firstIdx]

theorem firstIdx_cons_ne {x w : String} (t : List String) (h : ¬x = w) :
    firstIdx w (x :: t) = firstIdx w t + 1 := by
  simp [firstIdx, h]

theorem dedupFirstAux_pairwise_firstIdx :
    ∀ (l seen : List String), (dedupFirstAux seen l).Pairwise
      (fun a b => firstIdx a l < firstIdx b l) := by
  intro l
  induction l with
  | nil => intro seen; simp [dedupFirstAux]
  | cons c t ih =>
    intro seen
    unfold dedupFirstAux
    by_cases hc : c ∈ seen
    · rw [if_pos hc]
      apply pairwise_imp_mem ?_ (ih seen)
      intro a ha b hb hr
      have ha' : ¬c = a := fun hcon =>
        (dedupFirstAux_nodup_notin t seen).2 a ha (hcon ▸ hc)
      have hb' : ¬c = b := fun hcon =>
        (dedupFirstAux_nodup_notin t seen).2 b hb (hcon ▸ hc)
      rw [firstIdx_cons_ne t ha', firstIdx_cons_ne t hb']
      omega
    · rw [if_neg hc]
      refine List.Pairwise.cons ?_ ?_
      · intro b hb
        have hbmem := (dedupFirstAux_nodup_notin t (c :: seen)).2 b hb
        have hbne : ¬c = b := fun hcon => hbmem (hcon ▸ List.mem_cons_self c seen)
        rw [firstIdx_cons_self, firstIdx_cons_ne t hbne]
        omega
      · apply pairwise_imp_mem ?_ (ih (c :: seen))
        intro a ha b hb hr
        have ha' : ¬c = a := fun hcon =>
          (dedupFirstAux_nodup_notin t (c :: seen)).2 a ha (hcon ▸ List.mem_cons_self c seen)
        have hb' : ¬c = b := fun hcon =>
          (dedupFirstAux_nodup_notin t (c :: seen)).2 b hb (hcon ▸ List.mem_cons_self c seen)
        rw [firstIdx_cons_ne t ha', firstIdx_cons_ne t hb']
        omega

theorem orderedInsert_pairwise_desc {toks : List String} {x : WordCount} :
    ∀ {l : List WordCount}, l.Sorted countGE →
      l.Pairwise (fun a b => b.count < a.count ∨
        (a.count = b.count ∧ firstIdx a.word toks < firstIdx b.word toks)) →
      (∀ y ∈ l, firstIdx x.word toks < firstIdx y.word toks) →
      (List.orderedInsert countGE x l).Pairwise (fun a b => b.count < a.count ∨
        (a.count = b.count ∧ firstIdx a.word toks < firstIdx b.word toks)) := by
  intro l
  induction l with
  | nil => intro _ _ _; simp [List.orderedInsert]
  | cons b t ih =>
    intro hs hp hidx
    by_cases hxb : countGE x b
    · rw [List.orderedInsert, if_pos hxb]
      refine List.Pairwise.cons ?_ hp
      intro y hy
      have hyx : y.count ≤ x.count := by
        rcases List.mem_cons.mp hy with rfl | hyt
        · exact hxb
        · exact le_trans ((List.sorted_cons.mp hs).1 y hyt) hxb
      rcases lt_or_eq_of_le hyx with h | h
      · exact Or.inl h
      · exact Or.inr ⟨h.symm, hidx y hy⟩
    · rw [List.orderedInsert, if_neg hxb]
      refine List.Pairwise.cons ?_ (ih (List.sorted_cons.mp hs).2
        (List.pairwise_cons.mp hp).2 fun y hy => hidx y (List.mem_cons_of_mem b hy))
      intro y hy
      rcases (List.mem_orderedInsert countGE).mp hy with rfl | hyt
      · exact Or.inl (by simpa [countGE] using hxb)
      · exact (List.pairwise_cons.mp hp).1 y hyt

theorem insertionSort_pairwise_desc {toks : List String} :
    ∀ {l : List WordCount},
      l.Pairwise (fun a b => firstIdx a.word toks < firstIdx b.word toks) →
      (List.insertionSort countGE l).Pairwise (fun a b => b.count < a.count ∨
        (a.count = b.count ∧ firstIdx a.word toks < firstIdx b.word toks)) := by
  intro l
  induction l with
  | nil => intro _; simp
  | cons x xs ih =>
    intro hp
    rw [List.insertionSort]
    refine orderedInsert_pairwise_desc (List.sorted_insertionSort countGE xs)
      (ih (List.pairwise_cons.mp hp).2) ?_
    intro y hy
    exact (List.pairwise_cons.mp hp).1 y ((List.mem_insertionSort countGE).mp hy)

/-- The extensional specification of `Counter.most_common`. -/
theorem mostCommon_spec (n : ℕ) (toks : List String) :
    (mostCommon n toks).length = min n (dedupFirst toks).length ∧
    (∀ e ∈ mostCommon n toks, e.count = toks.count e.word ∧ e.word ∈ toks) ∧
    (mostCommon n toks).Pairwise (fun a b => b.count < a.count ∨
      (a.count = b.count ∧ firstIdx a.word toks < firstIdx b.word toks)) ∧
    (∀ w ∈ toks, (∃ e ∈ mostCommon n toks, e.word = w) ∨
      (∀ e ∈ mostCommon n toks, toks.count w ≤ e.count)) := by
  have hperm := List.perm_insertionSort countGE
    ((dedupFirst toks).map fun w => ⟨w, toks.count w⟩)
  refine ⟨?_, ?_, ?_, ?_⟩
  · unfold mostCommon
    rw [List.length_take, List.length_insertionSort, List.length_map]
  · intro e he
    have heS : e ∈ List.insertionSort countGE
        ((dedupFirst toks).map fun w => ⟨w, toks.count w⟩) :=
      List.mem_of_mem_take he
    have hent := hperm.subset heS
    obtain ⟨w, hw, rfl⟩ := List.mem_map.mp hent
    exact ⟨rfl, (dedupFirst_sublist toks).subset hw⟩
  · unfold mostCommon
    refine List.Pairwise.take (insertionSort_pairwise_desc ?_)
    rw [List.pairwise_map]
    exact dedupFirstAux_pairwise_firstIdx toks []
  · intro w hw
    have hent : (⟨w, toks.count w⟩ : WordCount) ∈
        (dedupFirst toks).map fun w => ⟨w, toks.count w⟩ :=
      List.mem_map.mpr ⟨w, mem_dedupFirst hw, rfl⟩
    have heS : (⟨w, toks.count w⟩ : WordCount) ∈ List.insertionSort countGE
        ((dedupFirst toks).map fun w => ⟨w, toks.count w⟩) := hperm.mem_iff.mpr hent
    have hsplit := List.mem_append.mp
      ((List.take_append_drop n (List.insertionSort countGE
        ((dedupFirst toks).map fun w => ⟨w, toks.count w⟩))).symm ▸ heS)
    rcases hsplit with h | h
    · exact Or.inl ⟨⟨w, toks.count w⟩, h, rfl⟩
    · refine Or.inr ?_
      intro e he
      exact (List.sorted_insertionSort countGE
        ((dedupFirst toks).map fun w => ⟨w, toks.count w⟩)).rel_of_mem_take_of_mem_drop he h

/-- C9: for a table with a text column the eda stage's `word_frequency` is
`Counter.most_common(15)` of the tokens of the first 500 texts (each text
normalized, lowercased, whitespace-split with empty tokens dropped): it has
`min 15 (number of distinct tokens)` entries, each entry carries a token of
the corpus with its exact occurrence count, entries are ordered by strictly
decreasing count with ties broken by first-occurrence order, and any token
left out has a count no larger than every listed entry's. -/
theorem C9_eda_word_frequency :
    ∀ (df : DataFrame) (model : Scorer) (eda : EdaResult) (i : ℕ) (toks : List String),
      findTextColIdx df = some i →
      toks = (((textsOfCol df i).take 500).map _tokenize).flatten →
      perform_eda df model = Except.ok eda →
      eda.word_frequency = mostCommon 15 toks ∧
      eda.word_frequency.length = min 15 (dedupFirst toks).length ∧
      (∀ e ∈ eda.word_frequency, e.count = toks.count e.word ∧ e.word ∈ toks) ∧
      eda.word_frequency.Pairwise (fun a b => b.count < a.count ∨
        (a.count = b.count ∧ firstIdx a.word toks < firstIdx b.word toks)) ∧
      (∀ w ∈ toks, (∃ e ∈ eda.word_frequency, e.word = w) ∨
        (∀ e ∈ eda.word_frequency, toks.count w ≤ e.count)) := by
  intro df model eda i toks hcol htoks heda
  have hwf : eda.word_frequency = mostCommon 15 toks := by
    subst htoks
    unfold perform_eda at heda
    rw [hcol] at heda
    dsimp only at heda
    by_cases hemp : (textsOfCol df i).isEmpty
    · rw [if_pos hemp, except_pure_eq, except_ok_bind, except_pure_eq] at heda
      injection heda with heda
      rw [← heda]
    · rw [if_neg hemp] at heda
      cases hm : model ((textsOfCol df i).take 200) with
      | error e =>
        rw [hm, except_error_bind] at heda
        simp at heda
      | ok ss =>
        rw [hm, except_ok_bind, except_pure_eq, except_ok_bind, except_pure_eq] at heda
        injection heda with heda
        rw [← heda]
  obtain ⟨h1, h2, h3, h4⟩ := mostCommon_spec 15 toks
  exact ⟨hwf, hwf ▸ h1, hwf ▸ h2, hwf ▸ h3, fun w hw => (h4 w hw).elim
    (fun ⟨e, he, hew⟩ => Or.inl ⟨e, hwf ▸ he, hew⟩)
    (fun h => Or.inr fun e he => h e (hwf ▸ he))⟩

/-- C9 witness: the one-row table "hello world". -/
theorem C9_witness :
    perform_eda sampleDfOne samplePosScorer =
      Except.ok ⟨1, 11, [("POSITIVE", 1)], [⟨"hello", 1⟩, ⟨"world", 1⟩]⟩ ∧
    ([⟨"hello", 1⟩, ⟨"world", 1⟩] : List WordCount).Pairwise (fun a b =>
      b.count < a.count ∨ (a.count = b.count ∧
        firstIdx a.word ["hello", "world"] < firstIdx b.word ["hello", "world"])) := by
  have heda : perform_eda sampleDfOne samplePosScorer =
      Except.ok ⟨1, 11, [("POSITIVE", 1)], [⟨"hello", 1⟩, ⟨"world", 1⟩]⟩ := rfl
  refine ⟨heda, ?_⟩
  exact (C9_eda_word_frequency sampleDfOne samplePosScorer
    ⟨1, 11, [("POSITIVE", 1)], [⟨"hello", 1⟩, ⟨"world", 1⟩]⟩ 0 ["hello", "world"]
    (by decide) (by decide) heda).2.2.2.1

/-! ### The diagnostic correlation ranking (claim C7) -/

theorem rhe_ge_floor (q : ℚ) : ⌊q⌋ ≤ rhe q := by
  unfold rhe; split_ifs <;> omega

theorem rhe_le_floor_succ (q : ℚ) : rhe q ≤ ⌊q⌋ + 1 := by
  unfold rhe; split_ifs <;> omega

theorem rhe_mono {q r : ℚ} (h : q ≤ r) : rhe q ≤ rhe r := by
  rcases lt_or_eq_of_le (Int.floor_le_floor h) with hf | hf
  · have h1 := rhe_le_floor_succ q
    have h2 := rhe_ge_floor r
    omega
  · have hfr : q - (⌊q⌋ : ℚ) ≤ r - (⌊q⌋ : ℚ) := by linarith
    unfold rhe
    rw [← hf]
    split_ifs <;> first | omega | (exfalso; linarith)

theorem rhe_neg (q : ℚ) : rhe (-q) = - rhe q := by
  by_cases hint : q - (⌊q⌋ : ℚ) = 0
  · have hq : q = ((⌊q⌋ : ℤ) : ℚ) := by linarith
    rw [hq, ← Int.cast_neg, rhe_intCast, rhe_intCast]
  · have hfr0 : 0 < q - (⌊q⌋ : ℚ) :=
      lt_of_le_of_ne (by linarith [Int.floor_le q]) (Ne.symm hint)
    have hfr1 : q - (⌊q⌋ : ℚ) < 1 := by linarith [Int.lt_floor_add_one q]
    have hceil : ⌈q⌉ = ⌊q⌋ + 1 := by
      rw [Int.ceil_eq_iff]
      constructor
      · push_cast; linarith
      · push_cast; linarith
    have hflo : ⌊-q⌋ = -⌊q⌋ - 1 := by rw [Int.floor_neg, hceil]; ring
    unfold rhe
    rw [hflo]
    split_ifs <;> (try (push_cast at *)) <;> first | omega | (exfalso; linarith)

theorem pyRound_mono {q r : ℚ} (d : ℕ) (h : q ≤ r) : pyRound d q ≤ pyRound d r := by
  unfold pyRound
  have h10 : (0:ℚ) < 10 ^ d := by positivity
  rw [div_le_div_iff_of_pos_right h10]
  exact_mod_cast rhe_mono (mul_le_mul_of_nonneg_right h (le_of_lt h10))

theorem pyRound_neg (d : ℕ) (q : ℚ) : pyRound d (-q) = - pyRound d q := by
  unfold pyRound
  rw [neg_mul, rhe_neg]
  push_cast
  ring

theorem abs_pyRound (d : ℕ) (q : ℚ) : |pyRound d q| = pyRound d |q| := by
  rcases le_or_lt 0 q with h | h
  · rw [abs_of_nonneg h, abs_of_nonneg (pyRound_nonneg d h)]
  · have h0 : pyRound d (0:ℚ) = 0 := by
      unfold pyRound
      have hz : (0:ℚ) * 10 ^ d = ((0:ℤ):ℚ) := by norm_num
      rw [hz, rhe_intCast]
      norm_num
    have h1 : pyRound d q ≤ 0 := by
      have := pyRound_mono d (le_of_lt h)
      rw [h0] at this
      exact this
    rw [abs_of_neg h, abs_of_nonpos h1, ← pyRound_neg]

theorem completePairs_num (g : ℚ → ℚ) :
    ∀ xs : List ℚ, completePairs (xs.map Cell.num) (xs.map fun v => Cell.num (g v)) =
      xs.map fun x => (x, g x)
  | [] => rfl
  | a :: t => by
    have ih := completePairs_num g t
    show (a, g a) :: completePairs (t.map Cell.num) (t.map fun v => Cell.num (g v)) =
      (a, g a) :: t.map fun x => (x, g x)
    rw [ih]

theorem sum_map_mul_const (c : ℚ) (f : ℚ → ℚ) :
    ∀ xs : List ℚ, (xs.map fun x => c * f x).sum = c * (xs.map f).sum
  | [] => by simp
  | a :: t => by
    simp only [List.map_cons, List.sum_cons, sum_map_mul_const c f t]
    ring

theorem qMean_map_mul (c : ℚ) (xs : List ℚ) :
    qMean (xs.map fun x => c * x) = c * qMean xs := by
  unfold qMean
  rw [sum_map_mul_const c (fun x => x) xs]
  simp only [List.map_id', List.length_map]
  ring

theorem map_pair_fst (g : ℚ → ℚ) :
    ∀ xs : List ℚ, ((xs.map fun x => (x, g x)).map Prod.fst) = xs
  | [] => rfl
  | a :: t => by simp only [List.map_cons, map_pair_fst g t]

theorem map_pair_snd (g : ℚ → ℚ) :
    ∀ xs : List ℚ, ((xs.map fun x => (x, g x)).map Prod.snd) = xs.map g
  | [] => rfl
  | a :: t => by simp only [List.map_cons, map_pair_snd g t]

/-- On two perfectly collinear numeric columns with nonzero variance the
Pearson value is `c / |c|`, i.e. `±1`, provided the square-root capability
is exact at the one point where it is consulted. -/
theorem pearson_collinear (rsqrt : ℚ → ℚ) (xs : List ℚ) (c : ℚ)
    (hc : c ≠ 0) (hS : sxxOf xs ≠ 0)
    (hr : rsqrt (sxxOf xs * (c ^ 2 * sxxOf xs)) = |c| * sxxOf xs) :
    pearson rsqrt (xs.map Cell.num) (xs.map fun v => Cell.num (c * v)) = c / |c| := by
  unfold pearson
  rw [completePairs_num]
  dsimp only
  rw [map_pair_fst (fun x => c * x) xs, map_pair_snd (fun x => c * x) xs, qMean_map_mul]
  have hsxx : ((xs.map fun x => (x, c * x)).map fun p =>
      (p.1 - qMean xs) ^ 2).sum = sxxOf xs := by
    rw [List.map_map]; rfl
  have hsyy : ((xs.map fun x => (x, c * x)).map fun p =>
      (p.2 - c * qMean xs) ^ 2).sum = c ^ 2 * sxxOf xs := by
    rw [List.map_map]
    unfold sxxOf
    rw [← sum_map_mul_const (c ^ 2) (fun x => (x - qMean xs) ^ 2) xs]
    congr 1
    apply List.map_congr_left
    intro a _
    dsimp only [Function.comp]
    ring
  have hsxy : ((xs.map fun x => (x, c * x)).map fun p =>
      (p.1 - qMean xs) * (p.2 - c * qMean xs)).sum = c * sxxOf xs := by
    rw [List.map_map]
    unfold sxxOf
    rw [← sum_map_mul_const c (fun x => (x - qMean xs) ^ 2) xs]
    congr 1
    apply List.map_congr_left
    intro a _
    dsimp only [Function.comp]
    ring
  rw [hsxx, hsyy, hsxy]
  have hne : sxxOf xs * (c ^ 2 * sxxOf xs) ≠ 0 :=
    mul_ne_zero hS (mul_ne_zero (pow_ne_zero 2 hc) hS)
  rw [if_neg hne, hr]
  rw [show c * sxxOf xs / (|c| * sxxOf xs) = c / |c| from
    mul_div_mul_right c |c| hS]

/-- Any ordered sublist pair of a list appears among its unordered pairs. -/
theorem pair_sublist_mem_upairs {α : Type} {a b : α} :
    ∀ {l : List α}, [a, b].Sublist l → (a, b) ∈ upairs l := by
  intro l h
  induction l with
  | nil => cases h
  | cons x t ih =>
    cases h with
    | cons _ h2 =>
      exact List.mem_append_right _ (ih h2)
    | cons₂ _ h2 =>
      apply List.mem_append_left
      have hb : b ∈ t := h2.subset (List.mem_singleton_self b)
      exact List.mem_map.mpr ⟨b, hb, rfl⟩

/-- The first component of the Python sort key dominates: a tuple that
compares at least as large has at least as large an absolute correlation. -/
theorem pairDesc_absc {x y : PairT} (h : pairDesc x y) : y.absc ≤ x.absc := by
  unfold pairDesc pairKey at h
  rcases (Prod.Lex.le_iff _ _).mp h with h1 | h1
  · exact le_of_lt h1
  · exact le_of_eq h1.1

/-- The correlation-insights list a successful diagnostic stage returns. -/
theorem diagnostic_insights_eq {df : DataFrame} {model : Scorer} {rsqrt : ℚ → ℚ}
    {diag : DiagResult} (h : diagnostic_analytics df model rsqrt = Except.ok diag) :
    diag.correlation_insights =
      if 2 ≤ (numericIdxs df).length then
        ((List.insertionSort pairDesc (allPairs df rsqrt)).take 5).map fun t =>
          CorrIns.mk (t.ca ++ " vs " ++ t.cb) (pyRound 3 t.corr)
      else [] := by
  unfold diagnostic_analytics at h
  cases hcol : findTextColIdx df with
  | none =>
    rw [hcol] at h
    dsimp only at h
    rw [except_pure_eq, except_ok_bind] at h
    injection h with h
    rw [← h]
  | some i =>
    rw [hcol] at h
    dsimp only at h
    cases hm : model ((textsOfCol df i).take 200) with
    | error e =>
      rw [hm, except_error_bind] at h
      exact absurd h (by simp)
    | ok ss =>
      rw [hm, except_ok_bind] at h
      injection h with h
      rw [← h]

set_option maxHeartbeats 1600000 in
/-- **C7.** For a table with at least 2 numeric-typed columns, a successful
diagnostic stage considers every unordered pair of numeric columns (every
sublist pair of column indices is among the generated pairs), returns
exactly `min 5 (number of pairs)` correlation insights, each insight being
the `"A vs B"` label and the 3-decimal rounding of the Pearson correlation
of an actual pair of numeric columns (with undefined correlations replaced
by 0, first conjunct), ordered by absolute correlation descending; every
pair not listed has absolute rounded correlation at most that of every
listed entry; and for a table whose two numeric columns are perfectly
collinear (`col j = c · col i`, nonzero variance, exact square root at the
consulted point) the insight list is that single pair with correlation of
magnitude exactly 1. -/
theorem C7_diagnostic_correlations
    (df : DataFrame) (model : Scorer) (rsqrt : ℚ → ℚ) (diag : DiagResult)
    (hdiag : diagnostic_analytics df model rsqrt = Except.ok diag)
    (h2 : 2 ≤ (numericIdxs df).length) :
    (∀ xs ys : List Cell,
      ((completePairs xs ys).map fun p =>
          (p.1 - qMean ((completePairs xs ys).map Prod.fst)) ^ 2).sum *
        ((completePairs xs ys).map fun p =>
          (p.2 - qMean ((completePairs xs ys).map Prod.snd)) ^ 2).sum = 0 →
      pearson rsqrt xs ys = 0) ∧
    (∀ i j : ℕ, [i, j].Sublist (numericIdxs df) → (i, j) ∈ upairs (numericIdxs df)) ∧
    diag.correlation_insights.length = min 5 (upairs (numericIdxs df)).length ∧
    (∀ e ∈ diag.correlation_insights, ∃ ij ∈ upairs (numericIdxs df),
      e = CorrIns.mk (colName df ij.1 ++ " vs " ++ colName df ij.2)
            (pyRound 3 (pearson rsqrt (colCells df ij.1) (colCells df ij.2)))) ∧
    diag.correlation_insights.Pairwise
      (fun e₁ e₂ => |e₂.correlation| ≤ |e₁.correlation|) ∧
    (∀ ij ∈ upairs (numericIdxs df),
      CorrIns.mk (colName df ij.1 ++ " vs " ++ colName df ij.2)
          (pyRound 3 (pearson rsqrt (colCells df ij.1) (colCells df ij.2)))
        ∈ diag.correlation_insights ∨
      ∀ e ∈ diag.correlation_insights,
        |pyRound 3 (pearson rsqrt (colCells df ij.1) (colCells df ij.2))| ≤
          |e.correlation|) ∧
    (∀ i j : ℕ, ∀ xs : List ℚ, ∀ c : ℚ,
      numericIdxs df = [i, j] →
      colCells df i = xs.map Cell.num →
      colCells df j = (xs.map fun v => Cell.num (c * v)) →
      c ≠ 0 → sxxOf xs ≠ 0 →
      rsqrt (sxxOf xs * (c ^ 2 * sxxOf xs)) = |c| * sxxOf xs →
      diag.correlation_insights =
        [CorrIns.mk (colName df i ++ " vs " ++ colName df j)
          (pyRound 3 (pearson rsqrt (colCells df i) (colCells df j)))] ∧
      |pyRound 3 (pearson rsqrt (colCells df i) (colCells df j))| = 1) := by
  have hins : diag.correlation_insights =
      ((List.insertionSort pairDesc (allPairs df rsqrt)).take 5).map fun t =>
        CorrIns.mk (t.ca ++ " vs " ++ t.cb) (pyRound 3 t.corr) := by
    rw [diagnostic_insights_eq hdiag, if_pos h2]
  refine ⟨?_, ?_, ?_, ?_, ?_, ?_, ?_⟩
  · intro xs ys h0
    unfold pearson
    dsimp only
    rw [if_pos h0]
  · intro i j hsub
    exact pair_sublist_mem_upairs hsub
  · rw [hins, List.length_map, List.length_take,
      (List.perm_insertionSort pairDesc (allPairs df rsqrt)).length_eq]
    unfold allPairs
    rw [List.length_map]
  · intro e he
    rw [hins] at he
    obtain ⟨t, ht, rfl⟩ := List.mem_map.mp he
    have htL : t ∈ allPairs df rsqrt :=
      (List.perm_insertionSort pairDesc _).subset (List.take_subset 5 _ ht)
    obtain ⟨ij, hij, rfl⟩ := List.mem_map.mp htL
    exact ⟨ij, hij, rfl⟩
  · rw [hins, List.pairwise_map]
    have htake : ((List.insertionSort pairDesc (allPairs df rsqrt)).take 5).Pairwise
        pairDesc :=
      List.Pairwise.sublist (List.take_sublist 5 _)
        (List.sorted_insertionSort pairDesc (allPairs df rsqrt))
    refine pairwise_imp_mem ?_ htake
    intro a ha b hb hab
    have haL : a ∈ allPairs df rsqrt :=
      (List.perm_insertionSort pairDesc _).subset (List.take_subset 5 _ ha)
    have hbL : b ∈ allPairs df rsqrt :=
      (List.perm_insertionSort pairDesc _).subset (List.take_subset 5 _ hb)
    obtain ⟨ija, _, rfl⟩ := List.mem_map.mp haL
    obtain ⟨ijb, _, rfl⟩ := List.mem_map.mp hbL
    dsimp only
    rw [abs_pyRound, abs_pyRound]
    exact pyRound_mono 3 (pairDesc_absc hab)
  · intro ij hij
    have hmem : (⟨|pearson rsqrt (colCells df ij.1) (colCells df ij.2)|,
        colName df ij.1, colName df ij.2,
        pearson rsqrt (colCells df ij.1) (colCells df ij.2)⟩ : PairT)
        ∈ allPairs df rsqrt :=
      List.mem_map.mpr ⟨ij, hij, rfl⟩
    have hmemS : (⟨|pearson rsqrt (colCells df ij.1) (colCells df ij.2)|,
        colName df ij.1, colName df ij.2,
        pearson rsqrt (colCells df ij.1) (colCells df ij.2)⟩ : PairT)
        ∈ List.insertionSort pairDesc (allPairs df rsqrt) :=
      (List.perm_insertionSort pairDesc _).mem_iff.mpr hmem
    rw [← List.take_append_drop 5 (List.insertionSort pairDesc (allPairs df rsqrt))]
      at hmemS
    rcases List.mem_append.mp hmemS with hIn | hOut
    · left
      rw [hins]
      exact List.mem_map.mpr ⟨_, hIn, rfl⟩
    · right
      intro e he
      rw [hins] at he
      obtain ⟨x, hx, rfl⟩ := List.mem_map.mp he
      have hrel := List.Sorted.rel_of_mem_take_of_mem_drop
        (List.sorted_insertionSort pairDesc (allPairs df rsqrt)) hx hOut
      have hxL : x ∈ allPairs df rsqrt :=
        (List.perm_insertionSort pairDesc _).subset (List.take_subset 5 _ hx)
      obtain ⟨ijx, _, rfl⟩ := List.mem_map.mp hxL
      dsimp only
      rw [abs_pyRound, abs_pyRound]
      exact pyRound_mono 3 (pairDesc_absc hrel)
  · intro i j xs c hnum hci hcj hc hS hr
    have hp : pearson rsqrt (colCells df i) (colCells df j) = c / |c| := by
      rw [hci, hcj]
      exact pearson_collinear rsqrt xs c hc hS hr
    have hall : allPairs df rsqrt =
        [⟨|pearson rsqrt (colCells df i) (colCells df j)|, colName df i, colName df j,
          pearson rsqrt (colCells df i) (colCells df j)⟩] := by
      unfold allPairs
      rw [hnum]
      rfl
    have habs1 : |pyRound 3 (pearson rsqrt (colCells df i) (colCells df j))| = 1 := by
      rw [hp]
      rcases abs_choice c with hv | hv
      · rw [hv, div_self hc, show (1:ℚ) = ((1:ℤ):ℚ) by norm_num, pyRound_intCast]
        norm_num
      · rw [hv, div_neg, div_self hc, show (-(1:ℚ)) = ((-1:ℤ):ℚ) by norm_num,
          pyRound_intCast]
        norm_num
    refine ⟨?_, habs1⟩
    rw [hins, hall]
    rfl

/-- C7 witness: the two-column perfectly collinear table (`b = 2·a`), with
the square root exact at the one consulted point. -/
theorem C7_witness :
    2 ≤ (numericIdxs sampleDfNum).length ∧
    diagnostic_analytics sampleDfNum samplePosScorer sampleRsqrt =
      Except.ok ⟨[], [CorrIns.mk "a vs b" 1]⟩ ∧
    numericIdxs sampleDfNum = [0, 1] ∧
    colCells sampleDfNum 0 = ([1, 2, 3] : List ℚ).map Cell.num ∧
    colCells sampleDfNum 1 = (([1, 2, 3] : List ℚ).map fun v => Cell.num (2 * v)) ∧
    (2 : ℚ) ≠ 0 ∧ sxxOf [1, 2, 3] ≠ 0 ∧
    sampleRsqrt (sxxOf [1, 2, 3] * (2 ^ 2 * sxxOf [1, 2, 3])) =
      |(2 : ℚ)| * sxxOf [1, 2, 3] ∧
    ([CorrIns.mk "a vs b" 1]).Pairwise
      (fun e₁ e₂ => |e₂.correlation| ≤ |e₁.correlation|) ∧
    |pyRound 3 (pearson sampleRsqrt (colCells sampleDfNum 0)
      (colCells sampleDfNum 1))| = 1 := by
  have hnum : numericIdxs sampleDfNum = [0, 1] := rfl
  have h2 : 2 ≤ (numericIdxs sampleDfNum).length := by rw [hnum]; norm_num
  have hcol0 : colCells sampleDfNum 0 = [Cell.num 1, Cell.num 2, Cell.num 3] := rfl
  have hcol1 : colCells sampleDfNum 1 = [Cell.num 2, Cell.num 4, Cell.num 6] := rfl
  have hcp : completePairs [Cell.num 1, Cell.num 2, Cell.num 3]
      [Cell.num 2, Cell.num 4, Cell.num 6] = [(1, 2), (2, 4), (3, 6)] := rfl
  have hpear : pearson sampleRsqrt (colCells sampleDfNum 0)
      (colCells sampleDfNum 1) = 1 := by
    rw [hcol0, hcol1]
    unfold pearson
    rw [hcp]
    norm_num [qMean, sampleRsqrt]
  have hround1 : pyRound 3 (1 : ℚ) = 1 := by
    have h := pyRound_intCast 3 1
    norm_num at h
    exact h
  have hallx : allPairs sampleDfNum sampleRsqrt = [⟨1, "a", "b", 1⟩] := by
    unfold allPairs
    rw [hnum]
    dsimp [upairs]
    rw [hpear]
    norm_num [colName]
    exact ⟨rfl, rfl⟩
  have hdiag : diagnostic_analytics sampleDfNum samplePosScorer sampleRsqrt =
      Except.ok ⟨[], [CorrIns.mk "a vs b" 1]⟩ := by
    unfold diagnostic_analytics
    rw [show findTextColIdx sampleDfNum = none from rfl]
    dsimp only
    rw [except_pure_eq, except_ok_bind, hnum]
    rw [if_pos (by norm_num : 2 ≤ ([0, 1] : List ℕ).length), hallx]
    rw [show List.insertionSort pairDesc [(⟨1, "a", "b", 1⟩ : PairT)] =
      [(⟨1, "a", "b", 1⟩ : PairT)] from rfl]
    rw [except_pure_eq]
    rw [show ((List.take 5 [(⟨1, "a", "b", 1⟩ : PairT)]).map fun t =>
      CorrIns.mk (t.ca ++ " vs " ++ t.cb) (pyRound 3 t.corr)) =
      [CorrIns.mk ("a" ++ " vs " ++ "b") (pyRound 3 1)] from rfl]
    rw [hround1]
    rfl
  have hsxx : sxxOf [1, 2, 3] = 2 := by
    norm_num [sxxOf, qMean]
  have hc0 : colCells sampleDfNum 0 = ([1, 2, 3] : List ℚ).map Cell.num := rfl
  have hc1 : colCells sampleDfNum 1 =
      (([1, 2, 3] : List ℚ).map fun v => Cell.num (2 * v)) := by
    rw [hcol1]
    norm_num [List.map_cons, List.map_nil]
  have hS : sxxOf [1, 2, 3] ≠ 0 := by rw [hsxx]; norm_num
  have hr : sampleRsqrt (sxxOf [1, 2, 3] * (2 ^ 2 * sxxOf [1, 2, 3])) =
      |(2 : ℚ)| * sxxOf [1, 2, 3] := by
    rw [hsxx]
    norm_num [sampleRsqrt]
  obtain ⟨-, -, -, -, hpw, -, hcoll⟩ :=
    C7_diagnostic_correlations sampleDfNum samplePosScorer sampleRsqrt
      ⟨[], [CorrIns.mk "a vs b" 1]⟩ hdiag h2
  obtain ⟨-, habs1⟩ := hcoll 0 1 [1, 2, 3] 2 hnum hc0 hc1 (by norm_num) hS hr
  exact ⟨h2, hdiag, hnum, hc0, hc1, by norm_num, hS, hr, hpw, habs1⟩

/-! ### The report shape (claim C1) -/

theorem three_le_format_len (ins : List CorrIns) :
    3 ≤ (_format_correlations ins).length := by
  unfold _format_correlations
  rw [List.length_append, List.length_replicate]
  omega

/-- **C1.** `run_full_analysis` either propagates a sentiment-model failure
(a raised exception) or returns a report with exactly the five top-level
keys `biOverview`, `descriptive`, `diagnostic`, `predictive`,
`prescriptive`, in this order, whose diagnostic section holds a
correlations list of length at least 3 (padded with the neutral
placeholder when fewer real pairs exist). -/
theorem C1_report_shape (df : DataFrame) (model : Scorer) (env : TrainEnv)
    (rsqrt : ℚ → ℚ) :
    (∃ err, run_full_analysis df model env rsqrt = Except.error err) ∨
    ∃ rep, run_full_analysis df model env rsqrt = Except.ok rep ∧
      rep.map Prod.fst =
        ["biOverview", "descriptive", "diagnostic", "predictive", "prescriptive"] ∧
      3 ≤ corrLenOf rep := by
  unfold run_full_analysis
  cases h1 : perform_eda df model with
  | error e =>
    left
    exact ⟨e, by rw [except_error_bind]⟩
  | ok eda =>
    rw [except_ok_bind]
    cases h2 : descriptive_analytics df model with
    | error e =>
      left
      exact ⟨e, by rw [except_error_bind]⟩
    | ok desc =>
      rw [except_ok_bind]
      cases h3 : diagnostic_analytics df model rsqrt with
      | error e =>
        left
        exact ⟨e, by rw [except_error_bind]⟩
      | ok diag =>
        rw [except_ok_bind]
        right
        refine ⟨_, rfl, rfl, ?_⟩
        simp only [corrLenOf, List.lookup]
        norm_num
        exact three_le_format_len diag.correlation_insights

end NAE
